import Mathlib

/-!
Verification of the Time Lens selection-to-display pipeline.

This file gives a shallow embedding of the pipeline's pure core, translated
from the extension's TypeScript sources:

* `src/extension/src/parse/timezone.ts` — abbreviation table, source-zone
  resolution, offset-string utilities;
* `src/extension/src/content/parse/timezone.ts` — `minutesToOffset`;
* the chrono wrapper (`parseTime`, `extractTimezoneInfo`, `normalizeOffset`,
  `OFFSET_PATTERN`, `ABBREV_PATTERN`);
* `src/extension/src/content/index.ts` — the parse/convert result cache;
* `src/extension/src/content/selection.ts` — snapshot creation and versioning;
* `src/extension/src/content/hover.ts` — the overlay timer machine;
* `src/extension/src/content/parse/format.ts` — `formatTime`;
* the per-site enablement module (`isEnabledForOrigin`, `setEnabledForOrigin`).

JavaScript strings are modelled as `String` (a list of characters), machine
numbers as `Nat`/`Int`, `undefined`-able values as `Option`, and the two
regular expressions of the chrono wrapper as explicit backtracking matchers
with JavaScript's leftmost-match semantics.  External collaborators
(chrono-node, Luxon, the DOM) are modelled as oracle parameters.
-/

/-- Characters matched by the JavaScript regex class `\s` (also the set
removed by `String.prototype.trim`). -/
def isJsSpace (c : Char) : Bool :=
  c = ' ' || c = '\t' || c = '\n' || c = '\r' || c = '\x0b' || c = '\x0c' ||
  c = '\u00A0' || c = '\u1680' || ('\u2000' ≤ c && c ≤ '\u200A') ||
  c = '\u2028' || c = '\u2029' || c = '\u202F' || c = '\u205F' ||
  c = '\u3000' || c = '\uFEFF'

/-- JavaScript `String.prototype.trim`. -/
def jsTrim (s : String) : String :=
  String.mk (((s.data.dropWhile isJsSpace).reverse.dropWhile isJsSpace).reverse)

/-- JavaScript `s.slice(0, n)` for a nonnegative `n`. -/
def jsSlice (s : String) (n : Nat) : String :=
  String.mk (s.data.take n)

/-- The character class `\d` of JavaScript regular expressions. -/
def isDig (c : Char) : Bool :=
  c = '0' || c = '1' || c = '2' || c = '3' || c = '4' ||
  c = '5' || c = '6' || c = '7' || c = '8' || c = '9'

/-- Numeric value of a decimal digit character (as used by `parseInt`). -/
def digitVal (c : Char) : Nat := c.toNat - '0'.toNat

/-- JavaScript `str.padStart(2, '0')`, on the underlying character list. -/
def padStart2L (l : List Char) : List Char :=
  if 2 ≤ l.length then l else List.replicate (2 - l.length) '0' ++ l

/-- `offsetToMinutes` from `src/extension/src/parse/timezone.ts`:
matches `^([+-])(\d{2}):(\d{2})$` and returns `sign * (hours * 60 + minutes)`,
or `0` when the string does not match. -/
def offsetToMinutes (offset : String) : Int :=
  match offset.data with
  | [sgn, h1, h2, c, m1, m2] =>
    if (sgn = '+' || sgn = '-') && isDig h1 && isDig h2 && c = ':' &&
        isDig m1 && isDig m2 then
      let sign : Int := if sgn = '+' then 1 else -1
      let hours : Int := Int.ofNat (10 * digitVal h1 + digitVal h2)
      let minutes : Int := Int.ofNat (10 * digitVal m1 + digitVal m2)
      sign * (hours * 60 + minutes)
    else 0
  | _ => 0

/-- `minutesToOffset` from `src/extension/src/content/parse/timezone.ts`:
`` `${sign}${hours.toString().padStart(2,'0')}:${mins.toString().padStart(2,'0')}` ``
with `sign = minutes >= 0 ? '+' : '-'`, `hours = floor(|minutes| / 60)`,
`mins = |minutes| % 60`. -/
def minutesToOffset (minutes : Int) : String :=
  let sign : List Char := if 0 ≤ minutes then ['+'] else ['-']
  let absMinutes : Nat := minutes.natAbs
  let hours : Nat := absMinutes / 60
  let mins : Nat := absMinutes % 60
  String.mk (sign ++ padStart2L (Nat.repr hours).data ++ [':'] ++
    padStart2L (Nat.repr mins).data)

/-- `isOffset` from `src/extension/src/parse/timezone.ts`:
tests `^[+-]\d{2}:\d{2}$`. -/
def isOffset (zone : String) : Bool :=
  match zone.data with
  | [sgn, h1, h2, c, m1, m2] =>
    (sgn = '+' || sgn = '-') && isDig h1 && isDig h2 && c = ':' &&
      isDig m1 && isDig m2
  | _ => false

/-- The minutes field (last two digits) of a `±HH:MM`-shaped string. -/
def offsetMinutesField (s : String) : Nat :=
  match s.data with
  | [_, _, _, _, m1, m2] => 10 * digitVal m1 + digitVal m2
  | _ => 0

/-- JavaScript object truthiness for an optional string: `undefined` and the
empty string are falsy. -/
def optTruthy : Option String → Bool
  | some s => !(s == "")
  | none => false

/-- Lookup in a string-valued record (JavaScript object) modelled as an
association list: `r[k]`, `undefined` when the key is absent. -/
def recordGet (r : List (String × String)) (k : String) : Option String :=
  (r.find? (fun p => p.1 == k)).map (fun p => p.2)

/-- `TIMEZONE_ABBREVIATIONS` from `src/extension/src/parse/timezone.ts`:
the fixed abbreviation-to-zone table. -/
def TIMEZONE_ABBREVIATIONS : List (String × String) := [
  ("EST", "America/New_York"),
  ("EDT", "America/New_York"),
  ("CST", "America/Chicago"),
  ("CDT", "America/Chicago"),
  ("MST", "America/Denver"),
  ("MDT", "America/Denver"),
  ("PST", "America/Los_Angeles"),
  ("PDT", "America/Los_Angeles"),
  ("AKST", "America/Anchorage"),
  ("AKDT", "America/Anchorage"),
  ("HST", "Pacific/Honolulu"),
  ("AST", "America/Halifax"),
  ("ADT", "America/Halifax"),
  ("NST", "America/St_Johns"),
  ("NDT", "America/St_Johns"),
  ("GMT", "Europe/London"),
  ("BST", "Europe/London"),
  ("WET", "Europe/Lisbon"),
  ("WEST", "Europe/Lisbon"),
  ("CET", "Europe/Paris"),
  ("CEST", "Europe/Paris"),
  ("EET", "Europe/Helsinki"),
  ("EEST", "Europe/Helsinki"),
  ("MSK", "Europe/Moscow"),
  ("IST", "Asia/Kolkata"),
  ("PKT", "Asia/Karachi"),
  ("BST_BD", "Asia/Dhaka"),
  ("ICT", "Asia/Bangkok"),
  ("WIB", "Asia/Jakarta"),
  ("SGT", "Asia/Singapore"),
  ("HKT", "Asia/Hong_Kong"),
  ("CST_CN", "Asia/Shanghai"),
  ("JST", "Asia/Tokyo"),
  ("KST", "Asia/Seoul"),
  ("AWST", "Australia/Perth"),
  ("ACST", "Australia/Adelaide"),
  ("AEST", "Australia/Sydney"),
  ("AEDT", "Australia/Sydney"),
  ("NZST", "Pacific/Auckland"),
  ("NZDT", "Pacific/Auckland"),
  ("UTC", "UTC"),
  ("Z", "UTC")]

/-- Format presets of the Settings schema. -/
inductive FormatPreset where
  | system
  | iso
  | short
  | long
  | custom
deriving DecidableEq

/-- `Settings` of the tooltip variant (shared types next to
`src/extension/src/parse/timezone.ts`); `perSiteSourceZone` is a
string-to-string record. -/
structure Settings where
  enabled : Bool
  defaultSourceZone : String
  targetZones : List String
  primaryTargetZone : String
  formatPreset : FormatPreset
  customFormat : String
  perSiteSourceZone : List (String × String)

/-- `DEFAULT_SETTINGS` of the tooltip variant. -/
def DEFAULT_SETTINGS : Settings := {
  enabled := true,
  defaultSourceZone := "local",
  targetZones := ["local", "America/New_York", "America/Los_Angeles",
    "Europe/London", "Asia/Tokyo"],
  primaryTargetZone := "local",
  formatPreset := .system,
  customFormat := "ff",
  perSiteSourceZone := [] }

/-- `resolveSourceZone` from `src/extension/src/parse/timezone.ts`:
explicit offset, then known abbreviation, then per-site override, then the
configured default.  The truthiness tests mirror the JavaScript `if`s. -/
def resolveSourceZone (explicitOffset abbreviation : Option String)
    (settings : Settings) (origin : Option String) : String :=
  if optTruthy explicitOffset then
    explicitOffset.getD ""
  else if optTruthy abbreviation &&
      optTruthy (abbreviation.bind (fun a => recordGet TIMEZONE_ABBREVIATIONS a)) then
    (abbreviation.bind (fun a => recordGet TIMEZONE_ABBREVIATIONS a)).getD ""
  else if optTruthy origin &&
      optTruthy (origin.bind (fun o => recordGet settings.perSiteSourceZone o)) then
    (origin.bind (fun o => recordGet settings.perSiteSourceZone o)).getD ""
  else
    settings.defaultSourceZone

/-- `\s*$` applied to the remainder of the subject. -/
def restIsSpaces (l : List Char) : Bool := l.all isJsSpace

/-- The four ways `\d{1,2}:?\d{2}` can match at the head of `l`, as
`(consumed, remaining)` pairs in the backtracking order of a greedy
JavaScript regex engine (two hour digits before one, with `:` before
without). -/
def offsetTailCandidates (l : List Char) : List (List Char × List Char) :=
  (match l with
   | d1 :: d2 :: c :: d3 :: d4 :: r =>
     if isDig d1 && isDig d2 && c = ':' && isDig d3 && isDig d4 then
       [([d1, d2, c, d3, d4], r)]
     else []
   | _ => []) ++
  (match l with
   | d1 :: d2 :: d3 :: d4 :: r =>
     if isDig d1 && isDig d2 && isDig d3 && isDig d4 then
       [([d1, d2, d3, d4], r)]
     else []
   | _ => []) ++
  (match l with
   | d1 :: c :: d3 :: d4 :: r =>
     if isDig d1 && c = ':' && isDig d3 && isDig d4 then
       [([d1, c, d3, d4], r)]
     else []
   | _ => []) ++
  (match l with
   | d1 :: d3 :: d4 :: r =>
     if isDig d1 && isDig d3 && isDig d4 then [([d1, d3, d4], r)] else []
   | _ => [])

/-- Anchored attempt of `OFFSET_PATTERN = /([+-]\d{1,2}:?\d{2}|Z)\s*$/i`
at the current position; returns the captured group when the whole
pattern (including `\s*$`) matches here. -/
def matchOffsetAt : List Char → Option (List Char)
  | [] => none
  | c :: rest =>
    if c = '+' || c = '-' then
      match (offsetTailCandidates rest).find? (fun p => restIsSpaces p.2) with
      | some p => some (c :: p.1)
      | none => none
    else if c = 'Z' || c = 'z' then
      if restIsSpaces rest then some [c] else none
    else none

/-- Leftmost-match loop for `OFFSET_PATTERN`. -/
def offsetMatchGo : List Char → Option String
  | [] => none
  | c :: rest =>
    match matchOffsetAt (c :: rest) with
    | some tok => some (String.mk tok)
    | none => offsetMatchGo rest

/-- `text.match(OFFSET_PATTERN)`, returning capture group 1. -/
def offsetMatch (s : String) : Option String := offsetMatchGo s.data

/-- Word characters (`\w`) for the `\b` assertion. -/
def isWordChar (c : Char) : Bool :=
  ('A' ≤ c && c ≤ 'Z') || ('a' ≤ c && c ≤ 'z') || ('0' ≤ c && c ≤ '9') || c = '_'

/-- `[A-Z]` under the `i` flag. -/
def isLetterAZ (c : Char) : Bool :=
  ('A' ≤ c && c ≤ 'Z') || ('a' ≤ c && c ≤ 'z')

/-- Consume exactly `n` letters. -/
def takeLetters : Nat → List Char → Option (List Char × List Char)
  | 0, l => some ([], l)
  | _ + 1, [] => none
  | n + 1, c :: r =>
    if isLetterAZ c then (takeLetters n r).map (fun p => (c :: p.1, p.2)) else none

/-- Try `[A-Z]{n}T?\s*$` at the head of `l` (greedy `T?`), returning the
captured characters. -/
def tryAbbrevLen (n : Nat) (l : List Char) : Option (List Char) :=
  match takeLetters n l with
  | none => none
  | some (letters, after) =>
    match after with
    | c :: r =>
      if (c = 'T' || c = 't') && restIsSpaces r then some (letters ++ [c])
      else if restIsSpaces (c :: r) then some letters
      else none
    | [] => some letters

/-- Anchored attempt of `ABBREV_PATTERN = /\b([A-Z]{2,5}T?)\s*$/i` at the
current position (`prev` is the preceding character, if any); letter counts
are tried greedily from 5 down to 2. -/
def matchAbbrevAt (prev : Option Char) (l : List Char) : Option (List Char) :=
  if (match prev with | none => true | some p => !isWordChar p) then
    match tryAbbrevLen 5 l with
    | some r => some r
    | none =>
      match tryAbbrevLen 4 l with
      | some r => some r
      | none =>
        match tryAbbrevLen 3 l with
        | some r => some r
        | none => tryAbbrevLen 2 l
  else none

/-- Leftmost-match loop for `ABBREV_PATTERN`. -/
def abbrevMatchGo : Option Char → List Char → Option String
  | _, [] => none
  | prev, c :: rest =>
    match matchAbbrevAt prev (c :: rest) with
    | some tok => some (String.mk tok)
    | none => abbrevMatchGo (some c) rest

/-- `text.match(ABBREV_PATTERN)`, returning capture group 1. -/
def abbrevMatch (s : String) : Option String := abbrevMatchGo none s.data

/-- ASCII `String.prototype.toUpperCase` on one character. -/
def jsToUpperChar (c : Char) : Char :=
  if 'a' ≤ c ∧ c ≤ 'z' then Char.ofNat (c.toNat - 32) else c

/-- `String.prototype.toUpperCase` (ASCII range, which covers every
character the two patterns can capture). -/
def jsToUpper (s : String) : String := String.mk (s.data.map jsToUpperChar)

/-- JavaScript `offset.replace(':', '')`: removes the first colon only. -/
def removeFirstColon : List Char → List Char
  | [] => []
  | c :: r => if c = ':' then r else c :: removeFirstColon r

/-- `normalizeOffset` from the chrono wrapper: `Z`/`z` become `"+00:00"`;
otherwise the colon is removed, `cleaned[0]` is taken as the sign,
`cleaned.slice(1,3).padStart(2,'0')` as the hours and
`cleaned.slice(3,5).padStart(2,'0') || '00'` as the minutes.
(`cleaned[0]` on an empty string is `undefined`, which a template literal
renders as the text `undefined`.) -/
def normalizeOffset (offset : String) : String :=
  if offset.data.map jsToUpperChar = ['Z'] then "+00:00"
  else
    let cleaned := removeFirstColon offset.data
    let sign : List Char :=
      match cleaned with
      | [] => "undefined".data
      | c :: _ => [c]
    let hours := padStart2L ((cleaned.drop 1).take 2)
    let minutes0 := padStart2L ((cleaned.drop 3).take 2)
    let minutes := if minutes0 = [] then ['0', '0'] else minutes0
    String.mk (sign ++ hours ++ [':'] ++ minutes)

/-- Timezone evidence extracted from matched text. -/
structure TZInfo where
  explicitOffset : Option String
  abbreviation : Option String
  hasExplicitTimezone : Bool
deriving DecidableEq

/-- `extractTimezoneInfo` from the chrono wrapper: the offset pattern is
tried first; the abbreviation pattern is consulted only when no (truthy)
offset was produced, and its capture must be a key of
`TIMEZONE_ABBREVIATIONS` after upper-casing. -/
def extractTimezoneInfo (text : String) : TZInfo :=
  let offs : Option String := (offsetMatch text).map normalizeOffset
  let has1 : Bool := (offsetMatch text).isSome
  if optTruthy offs then
    { explicitOffset := offs, abbreviation := none, hasExplicitTimezone := has1 }
  else
    match abbrevMatch text with
    | some m =>
      let potentialAbbrev := jsToUpper m
      if optTruthy (recordGet TIMEZONE_ABBREVIATIONS potentialAbbrev) then
        { explicitOffset := offs, abbreviation := some potentialAbbrev,
          hasExplicitTimezone := true }
      else
        { explicitOffset := offs, abbreviation := none, hasExplicitTimezone := has1 }
    | none =>
      { explicitOffset := offs, abbreviation := none, hasExplicitTimezone := has1 }

/-- One element of the result list of the external `chrono.parse` call:
matched text, match index, and the parsed instant (epoch milliseconds of
`result.date()`). -/
structure RawChronoMatch where
  text : String
  index : Nat
  dateMs : Int
deriving DecidableEq

/-- Behaviour of one external `chrono.parse` call: it either throws or
returns a (possibly empty) list of matches. -/
inductive ChronoOutcome where
  | throws
  | results (rs : List RawChronoMatch)

/-- `ChronoParseResult` of the chrono wrapper. -/
structure ChronoParseResult where
  dateMs : Int
  matchedText : String
  startIndex : Nat
  endIndex : Nat
  explicitOffset : Option String
  abbreviation : Option String
  hasExplicitTimezone : Bool
deriving DecidableEq

/-- An `AbortSignal` as sampled at the two cancellation checks of
`parseTime` (the signal is read once before and once after the parse
call). -/
structure AbortSignalState where
  abortedAtEntry : Bool
  abortedAfterParse : Bool
deriving DecidableEq

/-- `parseTime` from the chrono wrapper: bail out when already aborted,
trim/truncate, call the external parser (`.throws` is caught and yields
`null`), re-check the signal, reject an empty result list, and build the
result from the first match only. -/
def parseTime (text : String) (signal : Option AbortSignalState)
    (chronoParse : String → ChronoOutcome) : Option ChronoParseResult :=
  if (signal.map (fun sg => sg.abortedAtEntry)).getD false then none
  else
    let trimmedText := jsSlice (jsTrim text) 200
    if trimmedText = "" then none
    else
      match chronoParse trimmedText with
      | .throws => none
      | .results rs =>
        if (signal.map (fun sg => sg.abortedAfterParse)).getD false then none
        else
          match rs with
          | [] => none
          | r :: _ =>
            let info := extractTimezoneInfo r.text
            some { dateMs := r.dateMs, matchedText := r.text,
                   startIndex := r.index, endIndex := r.index + r.text.length,
                   explicitOffset := info.explicitOffset,
                   abbreviation := info.abbreviation,
                   hasExplicitTimezone := info.hasExplicitTimezone }

/-- `SelectionSnapshot` (shared types): version, capped text, anchor
point and origin hint. -/
structure SelectionSnapshot where
  version : Int
  text : String
  anchorX : Int
  anchorY : Int
  origin : String
deriving DecidableEq

/-- The module-level parse-cache variables of the content script
(`lastParsedVersion`, `lastParseResult`, `lastParseFailureVersion`),
initialised to `-1` / `null` / `-1`. -/
structure CacheState (α : Type) where
  lastParsedVersion : Int
  lastParseResult : Option α
  lastParseFailureVersion : Int
deriving DecidableEq

/-- Initial cache state. -/
def initCache (α : Type) : CacheState α := ⟨-1, none, -1⟩

/-- Result of one `tryParse` call: the returned value, the cache state it
leaves behind, and how often `parseTime` / `convertTime` were invoked. -/
structure TryParseOut (α : Type) where
  result : Option α
  state : CacheState α
  parseCalls : Nat
  convertCalls : Nat
deriving DecidableEq

/-- `tryParse` from `src/extension/src/content/index.ts`: serve the cached
success when the version matches `lastParsedVersion` (and a result is
stored), serve the cached failure when it matches
`lastParseFailureVersion`, otherwise run `parseTime` and `convertTime`
(both modelled as oracles; `convertTime` also receives the current
settings and the snapshot's origin) and record the outcome, each recording
overwriting its slot and invalidating the other.  The abort-controller
hand-over performed before the parse call does not touch the cache and is
elided. -/
def tryParseStep {α : Type} (st : CacheState α) (snapshot : SelectionSnapshot)
    (settings : Settings)
    (parseTimeO : String → Option ChronoParseResult)
    (convertTimeO : ChronoParseResult → Settings → String → Option α) :
    TryParseOut α :=
  if snapshot.version = st.lastParsedVersion ∧ st.lastParseResult.isSome then
    ⟨st.lastParseResult, st, 0, 0⟩
  else if snapshot.version = st.lastParseFailureVersion then
    ⟨none, st, 0, 0⟩
  else
    match parseTimeO snapshot.text with
    | none => ⟨none, ⟨-1, none, snapshot.version⟩, 1, 0⟩
    | some chronoResult =>
      match convertTimeO chronoResult settings snapshot.origin with
      | none => ⟨none, ⟨-1, none, snapshot.version⟩, 1, 1⟩
      | some result => ⟨some result, ⟨snapshot.version, some result, -1⟩, 1, 1⟩

/-- The cache effect of a settings update (`handleSettingsUpdate` and the
storage-change listener): only `lastParsedVersion = -1` is executed before
`tryParse` is re-run; the failure slot is left as is. -/
def settingsUpdateCacheReset {α : Type} (st : CacheState α) : CacheState α :=
  { st with lastParsedVersion := -1 }

/-- The selection state read by `createSnapshot`: presence of a selection,
`isCollapsed`, `rangeCount`, the selected text, the bounding rectangle of
the first range, and the page origin. -/
structure SelectionInput where
  hasSelection : Bool
  isCollapsed : Bool
  rangeCount : Nat
  text : String
  rectLeft : Int
  rectBottom : Int
  rectWidth : Int
  rectHeight : Int
  origin : String

/-- `createSnapshot` from `src/extension/src/content/selection.ts`, with
the module-level `currentVersion` passed and returned explicitly: yields
`null` (without touching the counter) when there is no selection, the
selection is collapsed, `rangeCount` is zero, the trimmed text is empty,
or the bounding rectangle has zero extent; otherwise increments the
counter and emits the snapshot. -/
def createSnapshot (currentVersion : Int) (inp : SelectionInput) :
    Option SelectionSnapshot × Int :=
  if inp.hasSelection = false ∨ inp.isCollapsed = true ∨ inp.rangeCount = 0 then
    (none, currentVersion)
  else
    let text := jsTrim inp.text
    if text = "" then (none, currentVersion)
    else if inp.rectWidth = 0 ∧ inp.rectHeight = 0 then (none, currentVersion)
    else
      (some { version := currentVersion + 1, text := jsSlice text 200,
              anchorX := inp.rectLeft, anchorY := inp.rectBottom,
              origin := inp.origin }, currentVersion + 1)

/-- A session of debounced selection-change notifications: each event runs
`createSnapshot` against the current counter. -/
def processEvents : Int → List SelectionInput → List (Option SelectionSnapshot) × Int
  | v, [] => ([], v)
  | v, e :: rest =>
    let (snap, v1) := createSnapshot v e
    let (outs, v2) := processEvents v1 rest
    (snap :: outs, v2)

/-- Versions of the non-null snapshots of a session, in emission order. -/
def emittedVersions (outs : List (Option SelectionSnapshot)) : List Int :=
  outs.filterMap (fun o => o.map (fun s => s.version))

/-- `AUTO_DISMISS_DELAY` from `src/extension/src/content/hover.ts`. -/
def AUTO_DISMISS_DELAY : Nat := 4000

/-- `LEAVE_GRACE_PERIOD` from `src/extension/src/content/hover.ts`. -/
def LEAVE_GRACE_PERIOD : Nat := 300

/-- The two timer kinds of the hover module. -/
inductive TimerKind where
  | auto
  | grace
deriving DecidableEq

/-- One `setTimeout` registration: its id, kind, absolute fire time, and
whether `clearTimeout` has been called on it. -/
structure ScheduledTimer where
  id : Nat
  kind : TimerKind
  fireAt : Nat
  cancelled : Bool
deriving DecidableEq

/-- The hover module's state: every timer ever scheduled (fired ones are
removed), the two handle variables `autoDismissTimer` / `leaveTimer`
(holding timer ids), the `userEngaged` flag, and the id supply. -/
structure HoverSys where
  timers : List ScheduledTimer
  autoDismissTimer : Option Nat
  leaveTimer : Option Nat
  userEngaged : Bool
  nextId : Nat
deriving DecidableEq

/-- State of the hover module at content-script start. -/
def initHover : HoverSys := ⟨[], none, none, false, 0⟩

/-- `clearTimeout(id)`. -/
def clearTimeoutSys (sys : HoverSys) (id : Nat) : HoverSys :=
  { sys with timers :=
      sys.timers.map (fun tm =>
        if tm.id = id then { tm with cancelled := true } else tm) }

/-- `setTimeout(cb, delay)` for a callback firing at absolute time
`fireAt`; returns the new state and the timer id. -/
def setTimeoutSys (sys : HoverSys) (kind : TimerKind) (fireAt : Nat) :
    HoverSys × Nat :=
  ({ sys with
      timers := sys.timers ++ [⟨sys.nextId, kind, fireAt, false⟩],
      nextId := sys.nextId + 1 }, sys.nextId)

/-- `cancelCloseTimer` from `hover.ts`: clear the auto-dismiss timer and
the leave timer, nulling both handles. -/
def cancelCloseTimer (sys : HoverSys) : HoverSys :=
  let s1 :=
    match sys.autoDismissTimer with
    | some id => { clearTimeoutSys sys id with autoDismissTimer := none }
    | none => sys
  match s1.leaveTimer with
  | some id => { clearTimeoutSys s1 id with leaveTimer := none }
  | none => s1

/-- `startAutoDismissTimer` from `hover.ts`: cancel both timers first,
reset `userEngaged`, then schedule the auto-dismiss timer
`AUTO_DISMISS_DELAY` from `now`. -/
def startAutoDismissTimer (sys : HoverSys) (now : Nat) : HoverSys :=
  let s1 := cancelCloseTimer sys
  let s2 := { s1 with userEngaged := false }
  let st := setTimeoutSys s2 .auto (now + AUTO_DISMISS_DELAY)
  { st.1 with autoDismissTimer := some st.2 }

/-- `handlePointerEnter` from `hover.ts`: set `userEngaged`, clear the
auto-dismiss timer and the leave timer. -/
def handlePointerEnter (sys : HoverSys) : HoverSys :=
  let s1 := { sys with userEngaged := true }
  let s2 :=
    match s1.autoDismissTimer with
    | some id => { clearTimeoutSys s1 id with autoDismissTimer := none }
    | none => s1
  match s2.leaveTimer with
  | some id => { clearTimeoutSys s2 id with leaveTimer := none }
  | none => s2

/-- `handlePointerLeave` from `hover.ts`: only when the user has engaged,
schedule the grace timer `LEAVE_GRACE_PERIOD` from `now`. -/
def handlePointerLeave (sys : HoverSys) (now : Nat) : HoverSys :=
  if sys.userEngaged then
    let st := setTimeoutSys sys .grace (now + LEAVE_GRACE_PERIOD)
    { st.1 with leaveTimer := some st.2 }
  else sys

/-- Remove a timer from the pending list once it has run. -/
def removeTimer (timers : List ScheduledTimer) (id : Nat) : List ScheduledTimer :=
  timers.filter (fun tm => !(tm.id = id : Bool))

/-- Run the callback of a due timer.  The auto-dismiss callback nulls its
handle and raises the hide notification (`notifyCallbacks false`) only if
the user never engaged; the grace callback nulls its handle and always
raises the hide notification.  Notifications are returned as
`(time, isHovering)` pairs. -/
def fireTimer (sys : HoverSys) (tm : ScheduledTimer) :
    HoverSys × List (Nat × Bool) :=
  match tm.kind with
  | .auto =>
    let s := { sys with
      autoDismissTimer := none
      timers := removeTimer sys.timers tm.id }
    if s.userEngaged then (s, []) else (s, [(tm.fireAt, false)])
  | .grace =>
    ({ sys with leaveTimer := none, timers := removeTimer sys.timers tm.id },
     [(tm.fireAt, false)])

/-- The timers that are still live (scheduled and not cancelled). -/
def liveTimers (sys : HoverSys) : List ScheduledTimer :=
  sys.timers.filter (fun tm => tm.cancelled = false)

/-- Event-loop ordering of two due timers: earlier fire time first, ties
by registration order. -/
def earlierTimer (a b : ScheduledTimer) : Bool :=
  a.fireAt < b.fireAt || (a.fireAt = b.fireAt && a.id < b.id)

/-- The next timer the event loop would run, among a list of due timers. -/
def pickNext : List ScheduledTimer → Option ScheduledTimer
  | [] => none
  | tm :: rest =>
    match pickNext rest with
    | none => some tm
    | some tm2 => if earlierTimer tm2 tm then some tm2 else some tm

/-- Fire, in event-loop order, every live timer due strictly before
`bound` (all remaining live timers when `bound` is `none`).  Timer
callbacks in this module never schedule new timers, so the pending-list
length bounds the number of fires. -/
def fireDue (fuel : Nat) (sys : HoverSys) (bound : Option Nat) :
    HoverSys × List (Nat × Bool) :=
  match fuel with
  | 0 => (sys, [])
  | fuel + 1 =>
    match pickNext ((liveTimers sys).filter
        (fun tm => match bound with | none => true | some t => tm.fireAt < t)) with
    | none => (sys, [])
    | some tm =>
      let fired := fireTimer sys tm
      let rest := fireDue fuel fired.1 bound
      (rest.1, fired.2 ++ rest.2)

/-- External stimuli of the hover module: the tooltip being shown
(`startAutoDismissTimer`), and pointer enter/leave. -/
inductive HoverEvent where
  | show
  | pointerEnter
  | pointerLeave

/-- Dispatch one external event at time `now`. -/
def handleHoverEvent (sys : HoverSys) (now : Nat) : HoverEvent → HoverSys
  | .show => startAutoDismissTimer sys now
  | .pointerEnter => handlePointerEnter sys
  | .pointerLeave => handlePointerLeave sys now

/-- Run a timed event trace: before each external event all timers due
strictly before it fire; after the last event every remaining live timer
fires.  Returns the final state and all hide notifications. -/
def runTrace : HoverSys → List (Nat × HoverEvent) → HoverSys × List (Nat × Bool)
  | sys, [] => fireDue sys.timers.length sys none
  | sys, (t, e) :: rest =>
    let pre := fireDue sys.timers.length sys (some t)
    let s2 := handleHoverEvent pre.1 t e
    let post := runTrace s2 rest
    (post.1, pre.2 ++ post.2)

/-- A Luxon `DateTime` as observed by `formatTime`: validity, the three
`toLocaleString` preset renderings, `toISO` (nullable), and `toFormat`
as a partial function (`none` models a throw on an invalid custom
pattern). -/
structure DateTimeModel where
  isValid : Bool
  localeMed : String
  localeShort : String
  localeFull : String
  isoString : Option String
  toFormatResult : String → Option String

/-- `FORMAT_PRESETS.system`: `dt.toLocaleString(DateTime.DATETIME_MED)`. -/
def FORMAT_PRESETS_system (dt : DateTimeModel) : String := dt.localeMed

/-- `FORMAT_PRESETS.iso`: `dt.toISO({suppressMilliseconds:true}) ?? ''`. -/
def FORMAT_PRESETS_iso (dt : DateTimeModel) : String := dt.isoString.getD ""

/-- `FORMAT_PRESETS.short`: `dt.toLocaleString(DateTime.DATETIME_SHORT)`. -/
def FORMAT_PRESETS_short (dt : DateTimeModel) : String := dt.localeShort

/-- `FORMAT_PRESETS.long`: `dt.toLocaleString(DateTime.DATETIME_FULL)`. -/
def FORMAT_PRESETS_long (dt : DateTimeModel) : String := dt.localeFull

/-- `FORMAT_PRESETS[preset]`: the record has no entry for `custom`. -/
def formatPresetEntry : FormatPreset → Option (DateTimeModel → String)
  | .system => some FORMAT_PRESETS_system
  | .iso => some FORMAT_PRESETS_iso
  | .short => some FORMAT_PRESETS_short
  | .long => some FORMAT_PRESETS_long
  | .custom => none

/-- `formatTime` from `src/extension/src/content/parse/format.ts`:
`"Invalid date"` for an invalid `DateTime`; for the `custom` preset with a
truthy pattern, `dt.toFormat` guarded by a try/catch falling back to the
`system` preset; otherwise the preset table with a final `system`
fallback. -/
def formatTime (dt : DateTimeModel) (preset : FormatPreset)
    (customFormat : Option String) : String :=
  if dt.isValid = false then "Invalid date"
  else if preset = .custom ∧ optTruthy customFormat then
    match dt.toFormatResult (customFormat.getD "") with
    | some out => out
    | none => FORMAT_PRESETS_system dt
  else
    match formatPresetEntry preset with
    | some f => f dt
    | none => FORMAT_PRESETS_system dt

/-- `DEFAULT_ENABLED` from `src/extension/src/shared/constants.ts`. -/
def DEFAULT_ENABLED : Bool := false

/-- `Settings` of the panel variant (`src/extension/src/shared/types.ts`);
`enabledSites` is a string-to-boolean record. -/
structure PanelSettings where
  enabledSites : List (String × Bool)
  defaultTargetZone : String
  formatPreset : FormatPreset
  customFormat : String
deriving DecidableEq

/-- `origin in settings.enabledSites`. -/
def recordHasB (r : List (String × Bool)) (k : String) : Bool :=
  r.any (fun p => p.1 == k)

/-- `settings.enabledSites[origin]` (`undefined` when absent). -/
def recordGetB (r : List (String × Bool)) (k : String) : Option Bool :=
  (r.find? (fun p => p.1 == k)).map (fun p => p.2)

/-- `{...r, [k]: v}`: replace the value in place when the key exists,
append otherwise. -/
def recordSetB (r : List (String × Bool)) (k : String) (v : Bool) :
    List (String × Bool) :=
  if recordHasB r k then
    r.map (fun p => if p.1 == k then (p.1, v) else p)
  else r ++ [(k, v)]

/-- `const { [k]: _, ...rest } = r`: drop the key. -/
def recordRemoveB (r : List (String × Bool)) (k : String) :
    List (String × Bool) :=
  r.filter (fun p => !(p.1 == k))

/-- `isEnabledForOrigin` from the origin-settings module: the stored flag
when the origin has an entry, `DEFAULT_ENABLED` otherwise. -/
def isEnabledForOrigin (settings : PanelSettings) (origin : String) : Bool :=
  match recordGetB settings.enabledSites origin with
  | some b => b
  | none => DEFAULT_ENABLED

/-- `setEnabledForOrigin` from the origin-settings module: enabling stores
`true` under the origin; disabling removes the origin's entry. -/
def setEnabledForOrigin (settings : PanelSettings) (origin : String)
    (enabled : Bool) : PanelSettings :=
  if enabled then
    { settings with enabledSites := recordSetB settings.enabledSites origin true }
  else
    { settings with enabledSites := recordRemoveB settings.enabledSites origin }

/-- Timer-machine invariant of the hover module: timer ids are distinct
and below the id supply, and every live (uncancelled, unfired) timer of a
kind is exactly the one its handle variable references. -/
def hoverInv (sys : HoverSys) : Prop :=
  List.Pairwise (fun a b => a.id ≠ b.id) sys.timers ∧
  (∀ tm ∈ sys.timers, tm.id < sys.nextId) ∧
  (∀ tm ∈ sys.timers, tm.cancelled = false → tm.kind = TimerKind.auto →
    sys.autoDismissTimer = some tm.id) ∧
  (∀ tm ∈ sys.timers, tm.cancelled = false → tm.kind = TimerKind.grace →
    sys.leaveTimer = some tm.id)

/-!
## Theorems

Helper lemmas first, then one theorem per claim (with witnesses and
counterexamples where required).
-/

/-- A character matched by `\d` is one of the ten digit characters. -/
theorem isDig_cases {c : Char} (h : isDig c = true) :
    c = '0' ∨ c = '1' ∨ c = '2' ∨ c = '3' ∨ c = '4' ∨
    c = '5' ∨ c = '6' ∨ c = '7' ∨ c = '8' ∨ c = '9' := by
  simp [isDig] at h
  tauto

/-- Two-digit rendering: `padStart(2,'0')` of the decimal representation
of a two-digit-field value reproduces the original digit characters. -/
theorem padStart2L_repr {a b : Char} (ha : isDig a = true) (hb : isDig b = true) :
    padStart2L (Nat.repr (10 * digitVal a + digitVal b)).data = [a, b] := by
  rcases isDig_cases ha with h | h | h | h | h | h | h | h | h | h <;> subst h <;>
    (rcases isDig_cases hb with h | h | h | h | h | h | h | h | h | h <;>
      subst h <;> decide)

/-- A digit character with value `0` is `'0'`. -/
theorem isDig_val_zero {c : Char} (h : isDig c = true) (h0 : digitVal c = 0) :
    c = '0' := by
  rcases isDig_cases h with h' | h' | h' | h' | h' | h' | h' | h' | h' | h' <;>
    subst h' <;> first | rfl | exact absurd h0 (by decide)

/-- `minutesToOffset` on a nonnegative input, in terms of `Nat` division. -/
theorem minutesToOffset_natCast (n : Nat) :
    minutesToOffset (n : Int) = String.mk (['+'] ++
      padStart2L (Nat.repr (n / 60)).data ++ [':'] ++
      padStart2L (Nat.repr (n % 60)).data) := by
  simp only [minutesToOffset]
  rw [if_pos (show (0 : Int) ≤ (n : Int) from by positivity), Int.natAbs_ofNat]

/-- `minutesToOffset` on a negative input, in terms of `Nat` division. -/
theorem minutesToOffset_negNatCast (n : Nat) (h : 0 < n) :
    minutesToOffset (-(n : Int)) = String.mk (['-'] ++
      padStart2L (Nat.repr (n / 60)).data ++ [':'] ++
      padStart2L (Nat.repr (n % 60)).data) := by
  simp only [minutesToOffset]
  rw [if_neg (show ¬ (0 : Int) ≤ -(n : Int) from by omega), Int.natAbs_neg,
    Int.natAbs_ofNat]

/-- C2 (amended): for every string matching the well-formed offset shape
`^[+-]\d{2}:\d{2}$` whose minutes field is below 60 and which is not
`"-00:00"`, `minutesToOffset (offsetToMinutes s) = s` — in particular for
the boundary values `"+00:00"` and `"-23:59"`.  (The frozen claim
quantifies over the whole shape; `"-00:00"` and minute fields `≥ 60`,
which the shape admits, are exactly the inputs where the round trip
fails — see the counterexample.) -/
theorem C2_offset_roundTrip (s : String) (hshape : isOffset s = true)
    (hmins : offsetMinutesField s < 60) (hne : s ≠ "-00:00") :
    minutesToOffset (offsetToMinutes s) = s := by
  obtain ⟨l⟩ := s
  rcases l with _ | ⟨c0, _ | ⟨c1, _ | ⟨c2, _ | ⟨c3, _ | ⟨c4, _ | ⟨c5, _ | ⟨c6, r⟩⟩⟩⟩⟩⟩⟩ <;>
    simp [isOffset] at hshape
  obtain ⟨⟨⟨⟨⟨hsgn, h1⟩, h2⟩, hc⟩, h4⟩, h5⟩ := hshape
  subst hc
  simp [offsetMinutesField] at hmins
  have hdiv : ((10 * digitVal c1 + digitVal c2) * 60 +
      (10 * digitVal c4 + digitVal c5)) / 60 = 10 * digitVal c1 + digitVal c2 := by
    omega
  have hmod : ((10 * digitVal c1 + digitVal c2) * 60 +
      (10 * digitVal c4 + digitVal c5)) % 60 = 10 * digitVal c4 + digitVal c5 := by
    omega
  rcases hsgn with h0 | h0 <;> subst h0
  · have e1 : offsetToMinutes ⟨['+', c1, c2, ':', c4, c5]⟩ =
        (((10 * digitVal c1 + digitVal c2) * 60 +
          (10 * digitVal c4 + digitVal c5) : Nat) : Int) := by
      simp [offsetToMinutes, h1, h2, h4, h5]
    rw [e1, minutesToOffset_natCast, hdiv, hmod,
      padStart2L_repr h1 h2, padStart2L_repr h4 h5]
    rfl
  · have hpos : 0 < (10 * digitVal c1 + digitVal c2) * 60 +
        (10 * digitVal c4 + digitVal c5) := by
      rcases Nat.eq_zero_or_pos ((10 * digitVal c1 + digitVal c2) * 60 +
        (10 * digitVal c4 + digitVal c5)) with hz | hp
      · have e1 : c1 = '0' := isDig_val_zero h1 (by omega)
        have e2 : c2 = '0' := isDig_val_zero h2 (by omega)
        have e4 : c4 = '0' := isDig_val_zero h4 (by omega)
        have e5 : c5 = '0' := isDig_val_zero h5 (by omega)
        subst e1; subst e2; subst e4; subst e5
        exact absurd rfl hne
      · exact hp
    have e1 : offsetToMinutes ⟨['-', c1, c2, ':', c4, c5]⟩ =
        -(((10 * digitVal c1 + digitVal c2) * 60 +
          (10 * digitVal c4 + digitVal c5) : Nat) : Int) := by
      simp [offsetToMinutes, h1, h2, h4, h5]
    rw [e1, minutesToOffset_negNatCast _ hpos, hdiv, hmod,
      padStart2L_repr h1 h2, padStart2L_repr h4 h5]
    rfl

/-- C2 counterexample: the offset shape admits `"-00:00"` and `"+00:99"`,
and on both the round trip of the frozen claim fails (`"-00:00"` comes
back as `"+00:00"`, `"+00:99"` as `"+01:39"`). -/
theorem C2_offset_roundTrip_cex :
    isOffset "-00:00" = true ∧
      minutesToOffset (offsetToMinutes "-00:00") ≠ "-00:00" ∧
    isOffset "+00:99" = true ∧
      minutesToOffset (offsetToMinutes "+00:99") ≠ "+00:99" := by
  refine ⟨by decide, by decide, by decide, by decide⟩

/-- C2 witness: the amended round trip holds at the boundary value
`"-23:59"`. -/
theorem C2_offset_roundTrip_witness :
    isOffset "-23:59" = true ∧ offsetMinutesField "-23:59" < 60 ∧
      "-23:59" ≠ "-00:00" ∧
      minutesToOffset (offsetToMinutes "-23:59") = "-23:59" :=
  ⟨by decide, by decide, by decide,
    C2_offset_roundTrip "-23:59" (by decide) (by decide) (by decide)⟩

/-- Every value of the fixed abbreviation table is a nonempty string. -/
theorem recordGet_table_ne_empty {a z : String}
    (h : recordGet TIMEZONE_ABBREVIATIONS a = some z) : z ≠ "" := by
  unfold recordGet at h
  cases hf : TIMEZONE_ABBREVIATIONS.find? (fun p => p.1 == a) with
  | none => rw [hf] at h; simp at h
  | some p =>
    rw [hf] at h
    simp at h
    have hmem := List.mem_of_find?_eq_some hf
    rw [← h]
    exact (show ∀ q ∈ TIMEZONE_ABBREVIATIONS, q.2 ≠ "" by decide) p hmem

/-- A key that hits the abbreviation table is nonempty. -/
theorem recordGet_table_key_ne_empty {a z : String}
    (h : recordGet TIMEZONE_ABBREVIATIONS a = some z) : a ≠ "" := by
  intro ha
  subst ha
  rw [show recordGet TIMEZONE_ABBREVIATIONS "" = none from by decide] at h
  exact Option.noConfusion h

/-- `normalizeOffset` never returns the empty string (its non-`Z` branch
always contains a colon). -/
theorem normalizeOffset_ne_empty (s : String) : normalizeOffset s ≠ "" := by
  unfold normalizeOffset
  split
  · decide
  · intro h
    have h2 := congrArg String.data h
    simp at h2

/-- C1: `resolveSourceZone` applies the strict precedence chain — a
present (nonempty) explicit offset is returned as is; otherwise a key of
`TIMEZONE_ABBREVIATIONS` resolves to that table's mapping; otherwise a
per-site override stored for the given origin is returned; otherwise
`settings.defaultSourceZone`, which is `"local"` under `DEFAULT_SETTINGS`.
Moreover, whenever the offset pattern matches the text, the extractor
reports the normalized offset and no abbreviation (abbreviation detection
is skipped), so the resolved source zone equals the offset. -/
theorem C1_resolveSourceZone_precedence :
    (∀ (off : String) (ab : Option String) (s : Settings) (o : Option String),
      off ≠ "" → resolveSourceZone (some off) ab s o = off) ∧
    (∀ (eo : Option String) (a z : String) (s : Settings) (o : Option String),
      optTruthy eo = false → recordGet TIMEZONE_ABBREVIATIONS a = some z →
      resolveSourceZone eo (some a) s o = z) ∧
    (∀ (eo ab : Option String) (s : Settings) (o v : String),
      optTruthy eo = false →
      (optTruthy ab &&
        optTruthy (ab.bind (fun a => recordGet TIMEZONE_ABBREVIATIONS a))) = false →
      o ≠ "" → recordGet s.perSiteSourceZone o = some v → v ≠ "" →
      resolveSourceZone eo ab s (some o) = v) ∧
    (∀ (eo ab oo : Option String) (s : Settings),
      optTruthy eo = false →
      (optTruthy ab &&
        optTruthy (ab.bind (fun a => recordGet TIMEZONE_ABBREVIATIONS a))) = false →
      (optTruthy oo &&
        optTruthy (oo.bind (fun o => recordGet s.perSiteSourceZone o))) = false →
      resolveSourceZone eo ab s oo = s.defaultSourceZone) ∧
    DEFAULT_SETTINGS.defaultSourceZone = "local" ∧
    (∀ (text tok : String) (s : Settings) (o : Option String),
      offsetMatch text = some tok →
      (extractTimezoneInfo text).explicitOffset = some (normalizeOffset tok) ∧
      (extractTimezoneInfo text).abbreviation = none ∧
      resolveSourceZone (extractTimezoneInfo text).explicitOffset
        (extractTimezoneInfo text).abbreviation s o = normalizeOffset tok) := by
  refine ⟨?_, ?_, ?_, ?_, rfl, ?_⟩
  · intro off ab s o hoff
    simp [resolveSourceZone, optTruthy, hoff]
  · intro eo a z s o heo h
    have ha : optTruthy (some a) = true := by
      simp [optTruthy, recordGet_table_key_ne_empty h]
    have hz : optTruthy (some z) = true := by
      simp [optTruthy, recordGet_table_ne_empty h]
    simp [resolveSourceZone, heo, h, ha, hz]
  · intro eo ab s o v heo hab ho h hv
    have h1 : optTruthy (some o) = true := by simp [optTruthy, ho]
    have h2 : optTruthy (some v) = true := by simp [optTruthy, hv]
    simp [resolveSourceZone, heo, hab, h, h1, h2]
  · intro eo ab oo s heo hab hoo
    simp [resolveSourceZone, heo, hab, hoo]
  · intro text tok s o h
    have hne := normalizeOffset_ne_empty tok
    refine ⟨?_, ?_, ?_⟩ <;>
      simp [extractTimezoneInfo, resolveSourceZone, h, optTruthy, hne]

/-- C1 witness: the four precedence levels and the extractor priority at
concrete inputs. -/
theorem C1_resolveSourceZone_precedence_witness :
    resolveSourceZone (some "+05:30") (some "PST") DEFAULT_SETTINGS
      (some "https://example.com") = "+05:30" ∧
    resolveSourceZone none (some "PST") DEFAULT_SETTINGS none =
      "America/Los_Angeles" ∧
    resolveSourceZone none none
      { DEFAULT_SETTINGS with
        perSiteSourceZone := [("https://example.com", "Asia/Tokyo")] }
      (some "https://example.com") = "Asia/Tokyo" ∧
    resolveSourceZone none none DEFAULT_SETTINGS (some "https://example.com") =
      "local" ∧
    resolveSourceZone (extractTimezoneInfo "Jan 15 at 2pm +05:30").explicitOffset
      (extractTimezoneInfo "Jan 15 at 2pm +05:30").abbreviation DEFAULT_SETTINGS
      none = "+05:30" :=
  ⟨C1_resolveSourceZone_precedence.1 "+05:30" (some "PST") DEFAULT_SETTINGS
      (some "https://example.com") (by decide),
   C1_resolveSourceZone_precedence.2.1 none "PST" "America/Los_Angeles"
      DEFAULT_SETTINGS none (by decide) (by decide),
   C1_resolveSourceZone_precedence.2.2.1 none none
      { DEFAULT_SETTINGS with
        perSiteSourceZone := [("https://example.com", "Asia/Tokyo")] }
      "https://example.com" "Asia/Tokyo" (by decide) (by decide) (by decide)
      (by decide) (by decide),
   C1_resolveSourceZone_precedence.2.2.2.1 none none
      (some "https://example.com") DEFAULT_SETTINGS (by decide) (by decide)
      (by decide),
   ((C1_resolveSourceZone_precedence.2.2.2.2.2 "Jan 15 at 2pm +05:30" "+05:30"
      DEFAULT_SETTINGS none (by decide)).2.2.trans (by decide))⟩

/-- C3 (code bug, evaluated at the failing input): the offset pattern
accepts the single-digit-hour token `"+5:30"`, but `normalizeOffset`
renders it as `"+53:00"` instead of the zero-padded `"+05:30"` (the
slice-based hour extraction misreads three-digit cleaned tokens, so the
extractor then reports `"+53:00"` as the explicit offset).  `Z`/`z` and
fully padded tokens are normalized as the claim states. -/
theorem C3_normalizeOffset_eval :
    offsetMatch "+5:30" = some "+5:30" ∧
    normalizeOffset "+5:30" = "+53:00" ∧
    normalizeOffset "+5:30" ≠ "+05:30" ∧
    normalizeOffset "Z" = "+00:00" ∧
    normalizeOffset "z" = "+00:00" ∧
    normalizeOffset "+0530" = "+05:30" ∧
    normalizeOffset "-08:00" = "-08:00" ∧
    extractTimezoneInfo "3pm +5:30" =
      ⟨some "+53:00", none, true⟩ := by
  refine ⟨by decide, by decide, by decide, by decide, by decide, by decide,
    by decide, by decide⟩

/-- `tryParse`, success-cache branch. -/
theorem tryParseStep_hit {α : Type} {st : CacheState α} {snap : SelectionSnapshot}
    {settings : Settings} {pO : String → Option ChronoParseResult}
    {cO : ChronoParseResult → Settings → String → Option α}
    (hc1 : snap.version = st.lastParsedVersion ∧ st.lastParseResult.isSome = true) :
    tryParseStep st snap settings pO cO = ⟨st.lastParseResult, st, 0, 0⟩ := by
  unfold tryParseStep
  rw [if_pos hc1]

/-- `tryParse`, failure-cache branch. -/
theorem tryParseStep_failHit {α : Type} {st : CacheState α} {snap : SelectionSnapshot}
    {settings : Settings} {pO : String → Option ChronoParseResult}
    {cO : ChronoParseResult → Settings → String → Option α}
    (hc1 : ¬(snap.version = st.lastParsedVersion ∧ st.lastParseResult.isSome = true))
    (hc2 : snap.version = st.lastParseFailureVersion) :
    tryParseStep st snap settings pO cO = ⟨none, st, 0, 0⟩ := by
  unfold tryParseStep
  rw [if_neg hc1, if_pos hc2]

/-- `tryParse`, parse-miss branch. -/
theorem tryParseStep_parse_none {α : Type} {st : CacheState α} {snap : SelectionSnapshot}
    {settings : Settings} {pO : String → Option ChronoParseResult}
    {cO : ChronoParseResult → Settings → String → Option α}
    (hc1 : ¬(snap.version = st.lastParsedVersion ∧ st.lastParseResult.isSome = true))
    (hc2 : ¬snap.version = st.lastParseFailureVersion)
    (hp : pO snap.text = none) :
    tryParseStep st snap settings pO cO = ⟨none, ⟨-1, none, snap.version⟩, 1, 0⟩ := by
  unfold tryParseStep
  rw [if_neg hc1, if_neg hc2, hp]

/-- `tryParse`, convert-miss branch. -/
theorem tryParseStep_convert_none {α : Type} {st : CacheState α}
    {snap : SelectionSnapshot} {settings : Settings}
    {pO : String → Option ChronoParseResult}
    {cO : ChronoParseResult → Settings → String → Option α}
    {ch : ChronoParseResult}
    (hc1 : ¬(snap.version = st.lastParsedVersion ∧ st.lastParseResult.isSome = true))
    (hc2 : ¬snap.version = st.lastParseFailureVersion)
    (hp : pO snap.text = some ch)
    (hcv : cO ch settings snap.origin = none) :
    tryParseStep st snap settings pO cO = ⟨none, ⟨-1, none, snap.version⟩, 1, 1⟩ := by
  unfold tryParseStep
  rw [if_neg hc1, if_neg hc2, hp]
  try dsimp only
  rw [hcv]

/-- `tryParse`, success branch. -/
theorem tryParseStep_success {α : Type} {st : CacheState α}
    {snap : SelectionSnapshot} {settings : Settings}
    {pO : String → Option ChronoParseResult}
    {cO : ChronoParseResult → Settings → String → Option α}
    {ch : ChronoParseResult} {res : α}
    (hc1 : ¬(snap.version = st.lastParsedVersion ∧ st.lastParseResult.isSome = true))
    (hc2 : ¬snap.version = st.lastParseFailureVersion)
    (hp : pO snap.text = some ch)
    (hcv : cO ch settings snap.origin = some res) :
    tryParseStep st snap settings pO cO =
      ⟨some res, ⟨snap.version, some res, -1⟩, 1, 1⟩ := by
  unfold tryParseStep
  rw [if_neg hc1, if_neg hc2, hp]
  try dsimp only
  rw [hcv]

/-- C4: the result cache is idempotent per version and keeps its two slots
mutually exclusive: a second `tryParse` with the same version and unchanged
settings returns the stored success (resp. the known failure) with zero
`parseTime`/`convertTime` invocations; whenever the oracles were invoked,
recording a success resets the failure slot to `-1` and recording a failure
resets the success slot; the one-slot invariant is preserved and holds
initially, and under it no version `v ≥ 0` is matched by both slots. -/
theorem C4_cache_idempotent_exclusive :
    (∀ (α : Type) (st : CacheState α) (snap : SelectionSnapshot)
      (settings : Settings) (pO : String → Option ChronoParseResult)
      (cO : ChronoParseResult → Settings → String → Option α) (r : α),
      (tryParseStep st snap settings pO cO).result = some r →
      tryParseStep (tryParseStep st snap settings pO cO).state snap settings pO cO =
        ⟨some r, (tryParseStep st snap settings pO cO).state, 0, 0⟩) ∧
    (∀ (α : Type) (st : CacheState α) (snap : SelectionSnapshot)
      (settings : Settings) (pO : String → Option ChronoParseResult)
      (cO : ChronoParseResult → Settings → String → Option α),
      (tryParseStep st snap settings pO cO).result = none →
      tryParseStep (tryParseStep st snap settings pO cO).state snap settings pO cO =
        ⟨none, (tryParseStep st snap settings pO cO).state, 0, 0⟩) ∧
    (∀ (α : Type) (st : CacheState α) (snap : SelectionSnapshot)
      (settings : Settings) (pO : String → Option ChronoParseResult)
      (cO : ChronoParseResult → Settings → String → Option α),
      1 ≤ (tryParseStep st snap settings pO cO).parseCalls →
      ((∃ r, (tryParseStep st snap settings pO cO).result = some r) →
        (tryParseStep st snap settings pO cO).state =
          ⟨snap.version, (tryParseStep st snap settings pO cO).result, -1⟩) ∧
      ((tryParseStep st snap settings pO cO).result = none →
        (tryParseStep st snap settings pO cO).state = ⟨-1, none, snap.version⟩)) ∧
    (∀ (α : Type) (st : CacheState α) (snap : SelectionSnapshot)
      (settings : Settings) (pO : String → Option ChronoParseResult)
      (cO : ChronoParseResult → Settings → String → Option α),
      st.lastParsedVersion = -1 ∨ st.lastParseFailureVersion = -1 →
      (tryParseStep st snap settings pO cO).state.lastParsedVersion = -1 ∨
        (tryParseStep st snap settings pO cO).state.lastParseFailureVersion = -1) ∧
    (∀ (α : Type) (st : CacheState α) (v : Int), 0 ≤ v →
      st.lastParsedVersion = -1 ∨ st.lastParseFailureVersion = -1 →
      ¬(st.lastParsedVersion = v ∧ st.lastParseFailureVersion = v)) ∧
    (∀ (α : Type), (initCache α).lastParsedVersion = -1 ∨
      (initCache α).lastParseFailureVersion = -1) := by
  refine ⟨?_, ?_, ?_, ?_, ?_, ?_⟩
  · intro α st snap settings pO cO r h
    by_cases hc1 : snap.version = st.lastParsedVersion ∧ st.lastParseResult.isSome = true
    · simp only [tryParseStep_hit hc1] at h ⊢
      simp only [h]
    · by_cases hc2 : snap.version = st.lastParseFailureVersion
      · rw [tryParseStep_failHit hc1 hc2] at h
        exact Option.noConfusion h
      · cases hp : pO snap.text with
        | none =>
          rw [tryParseStep_parse_none hc1 hc2 hp] at h
          exact Option.noConfusion h
        | some ch =>
          cases hcv : cO ch settings snap.origin with
          | none =>
            rw [tryParseStep_convert_none hc1 hc2 hp hcv] at h
            exact Option.noConfusion h
          | some res =>
            simp only [tryParseStep_success hc1 hc2 hp hcv] at h ⊢
            simp only [h]
            simp only [@tryParseStep_hit α ⟨snap.version, some r, -1⟩ snap
              settings pO cO ⟨rfl, rfl⟩]
  · intro α st snap settings pO cO h
    by_cases hc1 : snap.version = st.lastParsedVersion ∧ st.lastParseResult.isSome = true
    · simp only [tryParseStep_hit hc1] at h
      rw [h] at hc1
      simp at hc1
    · by_cases hc2 : snap.version = st.lastParseFailureVersion
      · rw [tryParseStep_failHit hc1 hc2]
        exact tryParseStep_failHit hc1 hc2
      · cases hp : pO snap.text with
        | none =>
          rw [tryParseStep_parse_none hc1 hc2 hp]
          exact tryParseStep_failHit (by simp) rfl
        | some ch =>
          cases hcv : cO ch settings snap.origin with
          | none =>
            rw [tryParseStep_convert_none hc1 hc2 hp hcv]
            exact tryParseStep_failHit (by simp) rfl
          | some res =>
            rw [tryParseStep_success hc1 hc2 hp hcv] at h
            exact Option.noConfusion h
  · intro α st snap settings pO cO h
    by_cases hc1 : snap.version = st.lastParsedVersion ∧ st.lastParseResult.isSome = true
    · rw [tryParseStep_hit hc1] at h
      exact absurd h (by simp)
    · by_cases hc2 : snap.version = st.lastParseFailureVersion
      · rw [tryParseStep_failHit hc1 hc2] at h
        exact absurd h (by simp)
      · cases hp : pO snap.text with
        | none =>
          rw [tryParseStep_parse_none hc1 hc2 hp]
          exact ⟨fun ⟨r, hr⟩ => Option.noConfusion hr, fun _ => rfl⟩
        | some ch =>
          cases hcv : cO ch settings snap.origin with
          | none =>
            rw [tryParseStep_convert_none hc1 hc2 hp hcv]
            exact ⟨fun ⟨r, hr⟩ => Option.noConfusion hr, fun _ => rfl⟩
          | some res =>
            rw [tryParseStep_success hc1 hc2 hp hcv]
            exact ⟨fun _ => rfl, fun hr => Option.noConfusion hr⟩
  · intro α st snap settings pO cO hinv
    by_cases hc1 : snap.version = st.lastParsedVersion ∧ st.lastParseResult.isSome = true
    · rw [tryParseStep_hit hc1]
      exact hinv
    · by_cases hc2 : snap.version = st.lastParseFailureVersion
      · rw [tryParseStep_failHit hc1 hc2]
        exact hinv
      · cases hp : pO snap.text with
        | none =>
          rw [tryParseStep_parse_none hc1 hc2 hp]
          exact Or.inl rfl
        | some ch =>
          cases hcv : cO ch settings snap.origin with
          | none =>
            rw [tryParseStep_convert_none hc1 hc2 hp hcv]
            exact Or.inl rfl
          | some res =>
            rw [tryParseStep_success hc1 hc2 hp hcv]
            exact Or.inr rfl
  · intro α st v hv hinv hboth
    rcases hboth with ⟨hb1, hb2⟩
    rcases hinv with h | h <;> omega
  · intro α
    exact Or.inl rfl

/-- C4 witness: a successful parse at version 1 is served from the cache
on the second call, with zero oracle invocations. -/
theorem C4_cache_idempotent_exclusive_witness :
    tryParseStep
      (tryParseStep (initCache Nat) ⟨1, "Jan 15", 0, 0, "https://example.com"⟩
        DEFAULT_SETTINGS
        (fun _ => some ⟨0, "Jan 15", 0, 6, none, none, false⟩)
        (fun _ _ _ => some 42)).state
      ⟨1, "Jan 15", 0, 0, "https://example.com"⟩ DEFAULT_SETTINGS
      (fun _ => some ⟨0, "Jan 15", 0, 6, none, none, false⟩)
      (fun _ _ _ => some 42) =
    ⟨some 42,
      (tryParseStep (initCache Nat) ⟨1, "Jan 15", 0, 0, "https://example.com"⟩
        DEFAULT_SETTINGS
        (fun _ => some ⟨0, "Jan 15", 0, 6, none, none, false⟩)
        (fun _ _ _ => some 42)).state, 0, 0⟩ :=
  C4_cache_idempotent_exclusive.1 Nat (initCache Nat)
    ⟨1, "Jan 15", 0, 0, "https://example.com"⟩ DEFAULT_SETTINGS
    (fun _ => some ⟨0, "Jan 15", 0, 6, none, none, false⟩)
    (fun _ _ _ => some 42) 42 rfl

/-- C5 counterexample: with version 1 recorded in the failure slot, a
settings update (which only executes `lastParsedVersion = -1`) followed by
re-evaluation of the same snapshot returns the cached `null` with zero
oracle invocations — even though computing with the new settings (second
conjunct) would succeed.  The code therefore does not recompute a
failure-slot version after a settings change. -/
theorem C5_settings_bypass_cex :
    tryParseStep
      (settingsUpdateCacheReset
        (tryParseStep (initCache Nat) ⟨1, "tomorrow 3pm", 0, 0, "https://example.com"⟩
          DEFAULT_SETTINGS
          (fun _ => some ⟨0, "tomorrow 3pm", 0, 12, none, none, false⟩)
          (fun _ _ _ => none)).state)
      ⟨1, "tomorrow 3pm", 0, 0, "https://example.com"⟩
      { DEFAULT_SETTINGS with defaultSourceZone := "Asia/Tokyo" }
      (fun _ => some ⟨0, "tomorrow 3pm", 0, 12, none, none, false⟩)
      (fun _ _ _ => some 7) =
      ⟨none, ⟨-1, none, 1⟩, 0, 0⟩ ∧
    tryParseStep (initCache Nat) ⟨1, "tomorrow 3pm", 0, 0, "https://example.com"⟩
      { DEFAULT_SETTINGS with defaultSourceZone := "Asia/Tokyo" }
      (fun _ => some ⟨0, "tomorrow 3pm", 0, 12, none, none, false⟩)
      (fun _ _ _ => some 7) =
      ⟨some 7, ⟨1, some 7, -1⟩, 1, 1⟩ :=
  ⟨rfl, rfl⟩

/-- C5 (amended): a settings update resets only the success slot before
re-running `tryParse`, so for a snapshot whose version is not the recorded
failure version (in particular one cached as a success) the pipeline
recomputes from scratch under the new settings; but a version recorded in
the failure slot is still answered `null` from the cache, with no
recomputation. -/
theorem C5_settings_update_recompute :
    (∀ (α : Type) (st : CacheState α) (snap : SelectionSnapshot)
      (settings2 : Settings) (pO : String → Option ChronoParseResult)
      (cO : ChronoParseResult → Settings → String → Option α),
      0 ≤ snap.version →
      snap.version ≠ st.lastParseFailureVersion →
      tryParseStep (settingsUpdateCacheReset st) snap settings2 pO cO =
        tryParseStep (initCache α) snap settings2 pO cO) ∧
    (∀ (α : Type) (st : CacheState α) (snap : SelectionSnapshot)
      (settings2 : Settings) (pO : String → Option ChronoParseResult)
      (cO : ChronoParseResult → Settings → String → Option α),
      0 ≤ snap.version →
      snap.version = st.lastParseFailureVersion →
      tryParseStep (settingsUpdateCacheReset st) snap settings2 pO cO =
        ⟨none, settingsUpdateCacheReset st, 0, 0⟩) := by
  constructor
  · intro α st snap settings2 pO cO hv hne
    have h1a : ¬(snap.version = (settingsUpdateCacheReset st).lastParsedVersion ∧
        (settingsUpdateCacheReset st).lastParseResult.isSome = true) := by
      simp only [settingsUpdateCacheReset]
      intro hcon
      omega
    have h2a : ¬snap.version = (settingsUpdateCacheReset st).lastParseFailureVersion := by
      simpa [settingsUpdateCacheReset] using hne
    have h1b : ¬(snap.version = (initCache α).lastParsedVersion ∧
        (initCache α).lastParseResult.isSome = true) := by
      simp only [initCache]
      intro hcon
      omega
    have h2b : ¬snap.version = (initCache α).lastParseFailureVersion := by
      simp only [initCache]
      omega
    cases hp : pO snap.text with
    | none =>
      rw [tryParseStep_parse_none h1a h2a hp, tryParseStep_parse_none h1b h2b hp]
    | some ch =>
      cases hcv : cO ch settings2 snap.origin with
      | none =>
        rw [tryParseStep_convert_none h1a h2a hp hcv,
          tryParseStep_convert_none h1b h2b hp hcv]
      | some res =>
        rw [tryParseStep_success h1a h2a hp hcv,
          tryParseStep_success h1b h2b hp hcv]
  · intro α st snap settings2 pO cO hv heq
    have h1a : ¬(snap.version = (settingsUpdateCacheReset st).lastParsedVersion ∧
        (settingsUpdateCacheReset st).lastParseResult.isSome = true) := by
      simp only [settingsUpdateCacheReset]
      intro hcon
      omega
    have h2a : snap.version = (settingsUpdateCacheReset st).lastParseFailureVersion := by
      simpa [settingsUpdateCacheReset] using heq
    exact tryParseStep_failHit h1a h2a

/-- C5 witness: a success-slot state is recomputed from scratch after a
settings update; a failure-slot state is served from the cache. -/
theorem C5_settings_update_recompute_witness :
    tryParseStep (settingsUpdateCacheReset (⟨1, some 42, -1⟩ : CacheState Nat))
        ⟨1, "Jan 15", 0, 0, "https://example.com"⟩ DEFAULT_SETTINGS
        (fun _ => some ⟨0, "Jan 15", 0, 6, none, none, false⟩)
        (fun _ _ _ => some 7) =
      tryParseStep (initCache Nat)
        ⟨1, "Jan 15", 0, 0, "https://example.com"⟩ DEFAULT_SETTINGS
        (fun _ => some ⟨0, "Jan 15", 0, 6, none, none, false⟩)
        (fun _ _ _ => some 7) ∧
    tryParseStep (settingsUpdateCacheReset (⟨-1, none, 1⟩ : CacheState Nat))
        ⟨1, "Jan 15", 0, 0, "https://example.com"⟩ DEFAULT_SETTINGS
        (fun _ => some ⟨0, "Jan 15", 0, 6, none, none, false⟩)
        (fun _ _ _ => some 7) =
      ⟨none, settingsUpdateCacheReset (⟨-1, none, 1⟩ : CacheState Nat), 0, 0⟩ :=
  ⟨C5_settings_update_recompute.1 Nat ⟨1, some 42, -1⟩
      ⟨1, "Jan 15", 0, 0, "https://example.com"⟩ DEFAULT_SETTINGS
      (fun _ => some ⟨0, "Jan 15", 0, 6, none, none, false⟩)
      (fun _ _ _ => some 7) (by decide) (by decide),
   C5_settings_update_recompute.2 Nat ⟨-1, none, 1⟩
      ⟨1, "Jan 15", 0, 0, "https://example.com"⟩ DEFAULT_SETTINGS
      (fun _ => some ⟨0, "Jan 15", 0, 6, none, none, false⟩)
      (fun _ _ _ => some 7) (by decide) rfl⟩

/-- `createSnapshot` either leaves the counter unchanged and emits nothing,
or emits a snapshot carrying the incremented counter. -/
theorem createSnapshot_cases (v : Int) (inp : SelectionInput) :
    createSnapshot v inp = (none, v) ∨
    createSnapshot v inp =
      (some ⟨v + 1, jsSlice (jsTrim inp.text) 200, inp.rectLeft, inp.rectBottom,
        inp.origin⟩, v + 1) := by
  simp only [createSnapshot]
  split_ifs <;> simp

/-- `emittedVersions` skips a null event. -/
theorem emittedVersions_cons_none (outs : List (Option SelectionSnapshot)) :
    emittedVersions (none :: outs) = emittedVersions outs := rfl

/-- `emittedVersions` records the version of an emitted snapshot. -/
theorem emittedVersions_cons_some (s : SelectionSnapshot)
    (outs : List (Option SelectionSnapshot)) :
    emittedVersions (some s :: outs) = s.version :: emittedVersions outs := rfl

/-- Emitted versions of a session exceed the starting counter, are
pairwise increasing, and the counter never decreases. -/
theorem processEvents_emitted (evs : List SelectionInput) : ∀ (v : Int),
    (∀ x ∈ emittedVersions (processEvents v evs).1, v < x) ∧
    List.Pairwise (· < ·) (emittedVersions (processEvents v evs).1) ∧
    v ≤ (processEvents v evs).2 := by
  induction evs with
  | nil => intro v; simp [processEvents, emittedVersions]
  | cons e rest ih =>
    intro v
    rcases createSnapshot_cases v e with hstep | hstep
    · simp only [processEvents, hstep]
      rcases ih v with ⟨h1, h2, h3⟩
      rw [emittedVersions_cons_none]
      exact ⟨h1, h2, h3⟩
    · simp only [processEvents, hstep]
      rcases ih (v + 1) with ⟨h1, h2, h3⟩
      rw [emittedVersions_cons_some]
      try dsimp only
      refine ⟨?_, ?_, by omega⟩
      · intro x hx
        rcases List.mem_cons.1 hx with hx | hx
        · rw [hx]; omega
        · have := h1 x hx
          omega
      · refine List.Pairwise.cons ?_ h2
        intro x hx
        have := h1 x hx
        omega

/-- C6: across every session of selection-change events, the versions of
the emitted non-null snapshots are strictly increasing; an event that
yields `null` leaves the version counter unchanged; and `null` is yielded
exactly when there is no selection, the selection is collapsed, the range
count is zero, the trimmed text is empty, or the bounding rectangle has
zero extent. -/
theorem C6_snapshot_versions_strictly_increasing :
    (∀ (v : Int) (evs : List SelectionInput),
      List.Pairwise (· < ·) (emittedVersions (processEvents v evs).1)) ∧
    (∀ (v : Int) (inp : SelectionInput),
      (createSnapshot v inp).1 = none → (createSnapshot v inp).2 = v) ∧
    (∀ (v : Int) (inp : SelectionInput),
      (createSnapshot v inp).1 = none ↔
        inp.hasSelection = false ∨ inp.isCollapsed = true ∨ inp.rangeCount = 0 ∨
        jsTrim inp.text = "" ∨ (inp.rectWidth = 0 ∧ inp.rectHeight = 0)) := by
  refine ⟨?_, ?_, ?_⟩
  · intro v evs
    exact (processEvents_emitted evs v).2.1
  · intro v inp h
    rcases createSnapshot_cases v inp with hstep | hstep <;> rw [hstep]
    rw [hstep] at h
    exact Option.noConfusion h
  · intro v inp
    simp only [createSnapshot]
    split_ifs with h1 h2 h3 <;> simp_all <;> tauto

/-- C6 witness: a collapsed-selection event yields `null` and leaves the
counter at its current value. -/
theorem C6_snapshot_versions_strictly_increasing_witness :
    (createSnapshot 3 ⟨true, true, 1, "3pm", 0, 0, 10, 10, "https://example.com"⟩).1 =
      none ∧
    (createSnapshot 3 ⟨true, true, 1, "3pm", 0, 0, 10, 10, "https://example.com"⟩).2 =
      3 :=
  ⟨rfl, C6_snapshot_versions_strictly_increasing.2.1 3
    ⟨true, true, 1, "3pm", 0, 0, 10, 10, "https://example.com"⟩ rfl⟩

/-- C7: `parseTime` (a total function — the external parser's throw is
caught) returns `null` exactly when the signal is already aborted on
entry, the trimmed 200-character-truncated text is empty, the external
parser throws or returns no matches, or the signal is found aborted when
re-checked after the parse call; otherwise it returns the result built
from the first match only. -/
theorem C7_parseTime_characterization :
    (∀ (text : String) (signal : Option AbortSignalState)
      (chronoParse : String → ChronoOutcome),
      parseTime text signal chronoParse = none ↔
        ((signal.map (fun sg => sg.abortedAtEntry)).getD false = true ∨
         jsSlice (jsTrim text) 200 = "" ∨
         chronoParse (jsSlice (jsTrim text) 200) = .throws ∨
         ((signal.map (fun sg => sg.abortedAfterParse)).getD false = true ∧
           ∃ rs, chronoParse (jsSlice (jsTrim text) 200) = .results rs) ∨
         chronoParse (jsSlice (jsTrim text) 200) = .results [])) ∧
    (∀ (text : String) (signal : Option AbortSignalState)
      (chronoParse : String → ChronoOutcome) (r : RawChronoMatch)
      (rest : List RawChronoMatch),
      (signal.map (fun sg => sg.abortedAtEntry)).getD false = false →
      chronoParse (jsSlice (jsTrim text) 200) = .results (r :: rest) →
      (signal.map (fun sg => sg.abortedAfterParse)).getD false = false →
      jsSlice (jsTrim text) 200 ≠ "" →
      parseTime text signal chronoParse =
        some ⟨r.dateMs, r.text, r.index, r.index + r.text.length,
          (extractTimezoneInfo r.text).explicitOffset,
          (extractTimezoneInfo r.text).abbreviation,
          (extractTimezoneInfo r.text).hasExplicitTimezone⟩) := by
  constructor
  · intro text signal chronoParse
    by_cases hentry : (signal.map (fun sg => sg.abortedAtEntry)).getD false = true
    · simp [parseTime, hentry]
    · by_cases htrim : jsSlice (jsTrim text) 200 = ""
      · simp [parseTime, hentry, htrim]
      · cases hout : chronoParse (jsSlice (jsTrim text) 200) with
        | throws => simp [parseTime, hentry, htrim, hout]
        | results rs =>
          by_cases hafter :
              (signal.map (fun sg => sg.abortedAfterParse)).getD false = true
          · simp [parseTime, hentry, htrim, hout, hafter]
          · cases rs with
            | nil => simp [parseTime, hentry, htrim, hout, hafter]
            | cons r rest => simp [parseTime, hentry, htrim, hout, hafter]
  · intro text signal chronoParse r rest hentry hout hafter htrim
    simp [parseTime, hentry, htrim, hout, hafter]

/-- C7 witness: a two-space-padded `"3pm"` with a parser returning one
match and a quiescent signal yields the result built from that first
match. -/
theorem C7_parseTime_characterization_witness :
    parseTime "  3pm  " none (fun _ => .results [⟨"3pm", 0, 42⟩]) =
      some ⟨42, "3pm", 0, 3, none, none, false⟩ :=
  (C7_parseTime_characterization.2 "  3pm  " none
    (fun _ => .results [⟨"3pm", 0, 42⟩]) ⟨"3pm", 0, 42⟩ [] rfl rfl rfl
    (by decide)).trans (by decide)

/-- C9: for every valid `DateTime`, `formatTime` with the `custom` preset
and an invalid custom pattern (one on which Luxon's `toFormat` throws, or
a falsy pattern) never throws — the embedding is total — and returns
exactly the string the `system` (locale-default) preset produces. -/
theorem C9_formatTime_invalid_custom_fallback :
    ∀ (dt : DateTimeModel) (customFormat : Option String),
      dt.isValid = true →
      (∀ pat, customFormat = some pat → pat ≠ "" → dt.toFormatResult pat = none) →
      formatTime dt .custom customFormat = FORMAT_PRESETS_system dt ∧
      formatTime dt .custom customFormat = formatTime dt .system none := by
  intro dt cf hvalid hinv
  cases cf with
  | none => simp [formatTime, hvalid, optTruthy, formatPresetEntry]
  | some pat =>
    by_cases hp : pat = ""
    · subst hp
      simp [formatTime, hvalid, optTruthy, formatPresetEntry]
    · have hthrow := hinv pat rfl hp
      simp [formatTime, hvalid, optTruthy, hp, hthrow, formatPresetEntry]

/-- C9 witness: a valid `DateTime` whose `toFormat` always throws renders
the `system` string under the `custom` preset. -/
theorem C9_formatTime_invalid_custom_fallback_witness :
    formatTime ⟨true, "Jan 15, 2024, 2:00 PM", "1/15/24", "January 15, 2024",
        some "2024-01-15T14:00:00", fun _ => none⟩ .custom (some "bogus pattern") =
      "Jan 15, 2024, 2:00 PM" :=
  ((C9_formatTime_invalid_custom_fallback
    ⟨true, "Jan 15, 2024, 2:00 PM", "1/15/24", "January 15, 2024",
      some "2024-01-15T14:00:00", fun _ => none⟩ (some "bogus pattern") rfl
    (fun _ _ _ => rfl)).1).trans rfl

/-- `recordGetB` on a cons cell. -/
theorem recordGetB_cons (p : String × Bool) (r : List (String × Bool))
    (k : String) :
    recordGetB (p :: r) k = if p.1 == k then some p.2 else recordGetB r k := by
  simp only [recordGetB, List.find?_cons]
  cases h : p.1 == k <;> simp [h]

/-- `recordHasB` on a cons cell. -/
theorem recordHasB_cons (p : String × Bool) (r : List (String × Bool))
    (k : String) :
    recordHasB (p :: r) k = ((p.1 == k) || recordHasB r k) := by
  simp [recordHasB]

/-- A key that is present keeps the new value after the in-place update. -/
theorem recordGetB_map_set_self (r : List (String × Bool)) (k : String)
    (v : Bool) (h : recordHasB r k = true) :
    recordGetB (r.map (fun p => if p.1 == k then (p.1, v) else p)) k = some v := by
  induction r with
  | nil => simp [recordHasB] at h
  | cons p r ih =>
    by_cases hp : p.1 = k
    · simp [recordGetB_cons, hp]
    · rw [recordHasB_cons] at h
      have h2 : recordHasB r k = true := by
        rcases Bool.or_eq_true_iff.1 h with h1 | h1
        · exact absurd (by simpa using h1) hp
        · exact h1
      simp only [List.map_cons]
      simp [recordGetB_cons, hp]
      simpa using ih h2

/-- The in-place update does not touch other keys. -/
theorem recordGetB_map_set_other (r : List (String × Bool)) (k k' : String)
    (v : Bool) (h : k' ≠ k) :
    recordGetB (r.map (fun p => if p.1 == k then (p.1, v) else p)) k' =
      recordGetB r k' := by
  induction r with
  | nil => rfl
  | cons p r ih =>
    simp only [List.map_cons]
    by_cases hp : (p.1 == k) = true
    · have hk : p.1 = k := by simpa using hp
      have hq : (p.1 == k') = false := by
        simp only [beq_eq_false_iff_ne, ne_eq, hk]
        exact fun hc => h hc.symm
      try dsimp only
      rw [if_pos hp, recordGetB_cons, recordGetB_cons]
      try dsimp only
      rw [hq]
      simpa using ih
    · dsimp only
      rw [if_neg hp, recordGetB_cons, recordGetB_cons]
      by_cases hq : ((p.1 == k') = true)
      · rw [if_pos hq, if_pos hq]
      · rw [if_neg hq, if_neg hq]
        exact ih

/-- Appending a fresh binding is found when the key was absent. -/
theorem recordGetB_append_self (r : List (String × Bool)) (k : String)
    (v : Bool) (h : recordHasB r k = false) :
    recordGetB (r ++ [(k, v)]) k = some v := by
  induction r with
  | nil => simp [recordGetB]
  | cons p r ih =>
    rw [recordHasB_cons] at h
    rcases Bool.or_eq_false_iff.1 h with ⟨h1, h2⟩
    rw [List.cons_append, recordGetB_cons, if_neg (by simp [h1])]
    exact ih h2

/-- Appending a fresh binding does not touch other keys. -/
theorem recordGetB_append_other (r : List (String × Bool)) (k k' : String)
    (v : Bool) (h : k' ≠ k) :
    recordGetB (r ++ [(k, v)]) k' = recordGetB r k' := by
  induction r with
  | nil =>
    simp [recordGetB]
    intro hc
    exact absurd hc.symm h
  | cons p r ih =>
    rw [List.cons_append, recordGetB_cons, recordGetB_cons]
    by_cases hq : p.1 = k' <;> simp [hq, ih]

/-- Removal eliminates the key. -/
theorem recordHasB_remove_self (r : List (String × Bool)) (k : String) :
    recordHasB (recordRemoveB r k) k = false := by
  induction r with
  | nil => rfl
  | cons p r ih =>
    simp only [recordRemoveB] at ih ⊢
    rw [List.filter_cons]
    try dsimp only
    by_cases hp : (p.1 == k) = true
    · rw [hp]
      simp only [Bool.not_true]
      rw [if_neg (by simp)]
      exact ih
    · have hp' : (p.1 == k) = false := by simpa using hp
      rw [hp']
      simp only [Bool.not_false]
      rw [if_true, recordHasB_cons, hp', Bool.false_or]
      exact ih

/-- Removal does not touch other keys. -/
theorem recordGetB_remove_other (r : List (String × Bool)) (k k' : String)
    (h : k' ≠ k) :
    recordGetB (recordRemoveB r k) k' = recordGetB r k' := by
  induction r with
  | nil => rfl
  | cons p r ih =>
    simp only [recordRemoveB] at ih ⊢
    rw [List.filter_cons]
    try dsimp only
    by_cases hp : (p.1 == k) = true
    · have hk : p.1 = k := by simpa using hp
      have hq : (p.1 == k') = false := by
        simp only [beq_eq_false_iff_ne, ne_eq, hk]
        exact fun hc => h hc.symm
      rw [hp]
      simp only [Bool.not_true]
      rw [if_neg (by simp), recordGetB_cons, hq]
      simp only [Bool.false_eq_true, if_false]
      exact ih
    · have hp' : (p.1 == k) = false := by simpa using hp
      rw [hp']
      simp only [Bool.not_false]
      rw [if_true, recordGetB_cons, recordGetB_cons]
      by_cases hq : ((p.1 == k') = true)
      · rw [if_pos hq, if_pos hq]
      · rw [if_neg hq, if_neg hq]
        exact ih

/-- An absent key reads as `undefined`. -/
theorem recordGetB_none_of_hasB_false (r : List (String × Bool)) (k : String)
    (h : recordHasB r k = false) : recordGetB r k = none := by
  induction r with
  | nil => rfl
  | cons p r ih =>
    rw [recordHasB_cons] at h
    rcases Bool.or_eq_false_iff.1 h with ⟨h1, h2⟩
    rw [recordGetB_cons, if_neg (by simp [h1])]
    exact ih h2

/-- `recordSetB` stores the value under the key. -/
theorem recordGetB_setB_self (r : List (String × Bool)) (k : String) (v : Bool) :
    recordGetB (recordSetB r k v) k = some v := by
  unfold recordSetB
  by_cases hhas : recordHasB r k = true
  · rw [if_pos hhas]
    exact recordGetB_map_set_self r k v hhas
  · rw [if_neg hhas]
    exact recordGetB_append_self r k v (by simpa using hhas)

/-- `recordSetB` leaves other keys alone. -/
theorem recordGetB_setB_other (r : List (String × Bool)) (k k' : String)
    (v : Bool) (h : k' ≠ k) :
    recordGetB (recordSetB r k v) k' = recordGetB r k' := by
  unfold recordSetB
  by_cases hhas : recordHasB r k = true
  · rw [if_pos hhas]
    exact recordGetB_map_set_other r k k' v h
  · rw [if_neg hhas]
    exact recordGetB_append_other r k k' v h

/-- C10: per-site enablement round-trips and is default-off:
`setEnabledForOrigin` (a pure function returning a fresh settings object)
makes `isEnabledForOrigin` read back exactly the stored flag, leaves every
other origin unchanged, an origin without an entry reads as the default
`false`, and disabling removes the origin's entry rather than storing
`false`. -/
theorem C10_per_site_enablement :
    (∀ (s : PanelSettings) (o : String) (b : Bool),
      isEnabledForOrigin (setEnabledForOrigin s o b) o = b) ∧
    (∀ (s : PanelSettings) (o o' : String) (b : Bool), o' ≠ o →
      isEnabledForOrigin (setEnabledForOrigin s o b) o' = isEnabledForOrigin s o') ∧
    (∀ (s : PanelSettings) (o : String),
      recordHasB s.enabledSites o = false → isEnabledForOrigin s o = false) ∧
    (∀ (s : PanelSettings) (o : String),
      recordHasB (setEnabledForOrigin s o false).enabledSites o = false) ∧
    DEFAULT_ENABLED = false := by
  refine ⟨?_, ?_, ?_, ?_, rfl⟩
  · intro s o b
    cases b with
    | true =>
      simp [setEnabledForOrigin, isEnabledForOrigin, recordGetB_setB_self]
    | false =>
      have hrem := recordGetB_none_of_hasB_false (recordRemoveB s.enabledSites o) o
        (recordHasB_remove_self s.enabledSites o)
      simp [setEnabledForOrigin, isEnabledForOrigin, hrem, DEFAULT_ENABLED]
  · intro s o o' b h
    cases b with
    | true =>
      simp [setEnabledForOrigin, isEnabledForOrigin,
        recordGetB_setB_other s.enabledSites o o' true h]
    | false =>
      simp [setEnabledForOrigin, isEnabledForOrigin,
        recordGetB_remove_other s.enabledSites o o' h]
  · intro s o h
    simp [isEnabledForOrigin, recordGetB_none_of_hasB_false s.enabledSites o h,
      DEFAULT_ENABLED]
  · intro s o
    simp [setEnabledForOrigin, recordHasB_remove_self]

/-- C10 witness: enabling one origin leaves another origin's state
unchanged, and an origin without an entry reads as disabled. -/
theorem C10_per_site_enablement_witness :
    isEnabledForOrigin
      (setEnabledForOrigin ⟨[("https://a.com", true)], "local", .system, "ff"⟩
        "https://b.com" true) "https://a.com" = true ∧
    isEnabledForOrigin (⟨[], "local", .system, "ff"⟩ : PanelSettings)
      "https://a.com" = false :=
  ⟨(C10_per_site_enablement.2.1 ⟨[("https://a.com", true)], "local", .system, "ff"⟩
      "https://b.com" "https://a.com" true (by decide)).trans (by decide),
   C10_per_site_enablement.2.2.1 ⟨[], "local", .system, "ff"⟩ "https://a.com" rfl⟩

/-- Normal form of `startAutoDismissTimer`. -/
theorem startAutoDismissTimer_eq (sys : HoverSys) (now : Nat) :
    startAutoDismissTimer sys now =
      ⟨(cancelCloseTimer sys).timers ++
        [⟨sys.nextId, .auto, now + AUTO_DISMISS_DELAY, false⟩],
       some sys.nextId, none, false, sys.nextId + 1⟩ := by
  obtain ⟨t, ad, lt, u, n⟩ := sys
  cases ad <;> cases lt <;> rfl

/-- `handlePointerEnter` is `cancelCloseTimer` plus setting `userEngaged`. -/
theorem handlePointerEnter_eq (sys : HoverSys) :
    handlePointerEnter sys = { cancelCloseTimer sys with userEngaged := true } := by
  obtain ⟨t, ad, lt, u, n⟩ := sys
  cases ad <;> cases lt <;> rfl

/-- `cancelCloseTimer` nulls both handles and keeps `nextId`. -/
theorem cancelCloseTimer_fields (sys : HoverSys) :
    (cancelCloseTimer sys).autoDismissTimer = none ∧
    (cancelCloseTimer sys).leaveTimer = none ∧
    (cancelCloseTimer sys).nextId = sys.nextId := by
  obtain ⟨t, ad, lt, u, n⟩ := sys
  cases ad <;> cases lt <;> simp [cancelCloseTimer, clearTimeoutSys]

/-- Under the invariant, `cancelCloseTimer` leaves no live timer at all
(every live timer is referenced by a handle, and both handles are
cleared). -/
theorem cancelCloseTimer_all_cancelled (sys : HoverSys) (hinv : hoverInv sys) :
    ∀ tm ∈ (cancelCloseTimer sys).timers, tm.cancelled = true := by
  obtain ⟨hpair, hid, hauto, hgrace⟩ := hinv
  obtain ⟨t, ad, lt, u, n⟩ := sys
  intro tm hm
  by_contra hlive0
  rw [Bool.not_eq_true] at hlive0
  cases ad with
  | none =>
    cases lt with
    | none =>
      simp only [cancelCloseTimer] at hm
      cases hk : tm.kind with
      | auto => exact Option.noConfusion (hauto tm hm hlive0 hk)
      | grace => exact Option.noConfusion (hgrace tm hm hlive0 hk)
    | some il =>
      simp only [cancelCloseTimer, clearTimeoutSys, List.mem_map] at hm
      obtain ⟨tm0, hm0, heq⟩ := hm
      by_cases h0 : tm0.id = il
      · rw [if_pos h0] at heq
        rw [← heq] at hlive0
        exact Bool.noConfusion hlive0
      · rw [if_neg h0] at heq
        subst heq
        cases hk : tm0.kind with
        | auto => exact Option.noConfusion (hauto tm0 hm0 hlive0 hk)
        | grace => exact h0 (Option.some.inj (hgrace tm0 hm0 hlive0 hk)).symm
  | some ia =>
    cases lt with
    | none =>
      simp only [cancelCloseTimer, clearTimeoutSys, List.mem_map] at hm
      obtain ⟨tm0, hm0, heq⟩ := hm
      by_cases h0 : tm0.id = ia
      · rw [if_pos h0] at heq
        rw [← heq] at hlive0
        exact Bool.noConfusion hlive0
      · rw [if_neg h0] at heq
        subst heq
        cases hk : tm0.kind with
        | auto => exact h0 (Option.some.inj (hauto tm0 hm0 hlive0 hk)).symm
        | grace => exact Option.noConfusion (hgrace tm0 hm0 hlive0 hk)
    | some il =>
      simp only [cancelCloseTimer, clearTimeoutSys, List.map_map, List.mem_map] at hm
      obtain ⟨tm0, hm0, heq⟩ := hm
      simp only [Function.comp] at heq
      by_cases h0 : tm0.id = ia
      · rw [if_pos h0] at heq
        split at heq <;> (rw [← heq] at hlive0; exact Bool.noConfusion hlive0)
      · rw [if_neg h0] at heq
        by_cases h1 : tm0.id = il
        · rw [if_pos h1] at heq
          rw [← heq] at hlive0
          exact Bool.noConfusion hlive0
        · rw [if_neg h1] at heq
          subst heq
          cases hk : tm0.kind with
          | auto => exact h0 (Option.some.inj (hauto tm0 hm0 hlive0 hk)).symm
          | grace => exact h1 (Option.some.inj (hgrace tm0 hm0 hlive0 hk)).symm

/-- `cancelCloseTimer` only flips `cancelled` flags: its timer list is an
id-preserving map of the original. -/
theorem cancelCloseTimer_timers_map (sys : HoverSys) :
    ∃ f : ScheduledTimer → ScheduledTimer, (∀ tm, (f tm).id = tm.id) ∧
      (cancelCloseTimer sys).timers = sys.timers.map f := by
  obtain ⟨t, ad, lt, u, n⟩ := sys
  cases ad with
  | none =>
    cases lt with
    | none => exact ⟨id, fun _ => rfl, (List.map_id t).symm⟩
    | some il =>
      exact ⟨fun tm => if tm.id = il then { tm with cancelled := true } else tm,
        fun tm => by dsimp only; split <;> rfl, rfl⟩
  | some ia =>
    cases lt with
    | none =>
      exact ⟨fun tm => if tm.id = ia then { tm with cancelled := true } else tm,
        fun tm => by dsimp only; split <;> rfl, rfl⟩
    | some il =>
      refine ⟨(fun tm => if tm.id = il then { tm with cancelled := true } else tm) ∘
        (fun tm => if tm.id = ia then { tm with cancelled := true } else tm),
        fun tm => by dsimp only [Function.comp]; split <;> split <;> rfl, ?_⟩
      simp [cancelCloseTimer, clearTimeoutSys, List.map_map]

/-- `startAutoDismissTimer` preserves the timer-machine invariant. -/
theorem hoverInv_start (sys : HoverSys) (now : Nat) (hinv : hoverInv sys) :
    hoverInv (startAutoDismissTimer sys now) := by
  obtain ⟨f, hfid, hmap⟩ := cancelCloseTimer_timers_map sys
  have hdead := cancelCloseTimer_all_cancelled sys hinv
  obtain ⟨hpair, hid, hauto, hgrace⟩ := hinv
  rw [startAutoDismissTimer_eq]
  refine ⟨?_, ?_, ?_, ?_⟩
  · rw [List.pairwise_append]
    refine ⟨?_, List.pairwise_singleton _ _, ?_⟩
    · rw [hmap]
      exact List.Pairwise.map f (fun a b hab => by rw [hfid, hfid]; exact hab) hpair
    · intro a ha b hb
      simp only [List.mem_singleton] at hb
      subst hb
      rw [hmap] at ha
      obtain ⟨a0, ha0, rfl⟩ := List.mem_map.1 ha
      have hlt := hid a0 ha0
      show (f a0).id ≠ sys.nextId
      rw [hfid]
      omega
  · intro tm hm
    rcases List.mem_append.1 hm with hm | hm
    · rw [hmap] at hm
      obtain ⟨a0, ha0, rfl⟩ := List.mem_map.1 hm
      have hlt := hid a0 ha0
      show (f a0).id < sys.nextId + 1
      rw [hfid]
      omega
    · simp only [List.mem_singleton] at hm
      subst hm
      show sys.nextId < sys.nextId + 1
      omega
  · intro tm hm hlive hk
    rcases List.mem_append.1 hm with hm | hm
    · rw [hdead tm hm] at hlive
      exact Bool.noConfusion hlive
    · simp only [List.mem_singleton] at hm
      subst hm
      rfl
  · intro tm hm hlive hk
    rcases List.mem_append.1 hm with hm | hm
    · rw [hdead tm hm] at hlive
      exact Bool.noConfusion hlive
    · simp only [List.mem_singleton] at hm
      subst hm
      exact TimerKind.noConfusion hk

/-- `handlePointerEnter` preserves the timer-machine invariant. -/
theorem hoverInv_enter (sys : HoverSys) (hinv : hoverInv sys) :
    hoverInv (handlePointerEnter sys) := by
  obtain ⟨f, hfid, hmap⟩ := cancelCloseTimer_timers_map sys
  have hdead := cancelCloseTimer_all_cancelled sys hinv
  obtain ⟨hpair, hid, hauto, hgrace⟩ := hinv
  obtain ⟨hh1, hh2, hh3⟩ := cancelCloseTimer_fields sys
  rw [handlePointerEnter_eq]
  refine ⟨?_, ?_, ?_, ?_⟩
  · show List.Pairwise _ (cancelCloseTimer sys).timers
    rw [hmap]
    exact List.Pairwise.map f (fun a b hab => by rw [hfid, hfid]; exact hab) hpair
  · intro tm hm
    show tm.id < (cancelCloseTimer sys).nextId
    rw [hh3]
    rw [show ({ cancelCloseTimer sys with userEngaged := true } : HoverSys).timers =
      (cancelCloseTimer sys).timers from rfl, hmap] at hm
    obtain ⟨a0, ha0, rfl⟩ := List.mem_map.1 hm
    have hlt := hid a0 ha0
    rw [hfid]
    exact hlt
  · intro tm hm hlive hk
    rw [show ({ cancelCloseTimer sys with userEngaged := true } : HoverSys).timers =
      (cancelCloseTimer sys).timers from rfl] at hm
    rw [hdead tm hm] at hlive
    exact Bool.noConfusion hlive
  · intro tm hm hlive hk
    rw [show ({ cancelCloseTimer sys with userEngaged := true } : HoverSys).timers =
      (cancelCloseTimer sys).timers from rfl] at hm
    rw [hdead tm hm] at hlive
    exact Bool.noConfusion hlive

/-- `handlePointerLeave` preserves the invariant whenever no grace timer
is pending (which the paired `pointerenter`/`pointerleave` DOM events and
the grace callback itself guarantee at every leave). -/
theorem hoverInv_leave (sys : HoverSys) (now : Nat) (hinv : hoverInv sys)
    (hlt : sys.leaveTimer = none) : hoverInv (handlePointerLeave sys now) := by
  obtain ⟨hpair, hid, hauto, hgrace⟩ := hinv
  unfold handlePointerLeave
  split
  · dsimp only [setTimeoutSys]
    refine ⟨?_, ?_, ?_, ?_⟩
    · rw [List.pairwise_append]
      refine ⟨hpair, List.pairwise_singleton _ _, ?_⟩
      intro a ha b hb
      simp only [List.mem_singleton] at hb
      subst hb
      have hlt2 := hid a ha
      show a.id ≠ sys.nextId
      omega
    · intro tm hm
      rcases List.mem_append.1 hm with hm | hm
      · have := hid tm hm
        show tm.id < sys.nextId + 1
        omega
      · simp only [List.mem_singleton] at hm
        subst hm
        show sys.nextId < sys.nextId + 1
        omega
    · intro tm hm hlive hk
      rcases List.mem_append.1 hm with hm | hm
      · exact hauto tm hm hlive hk
      · simp only [List.mem_singleton] at hm
        subst hm
        exact TimerKind.noConfusion hk
    · intro tm hm hlive hk
      rcases List.mem_append.1 hm with hm | hm
      · rw [hlt] at hgrace
        exact Option.noConfusion (hgrace tm hm hlive hk)
      · simp only [List.mem_singleton] at hm
        subst hm
        rfl
  · exact ⟨hpair, hid, hauto, hgrace⟩

/-- The state component of `fireTimer` nulls the fired kind's handle and
removes the timer. -/
theorem fireTimer_fst (sys : HoverSys) (tm : ScheduledTimer) :
    (fireTimer sys tm).1 =
      (match tm.kind with
       | .auto =>
         { sys with
           autoDismissTimer := none
           timers := removeTimer sys.timers tm.id }
       | .grace =>
         { sys with
           leaveTimer := none
           timers := removeTimer sys.timers tm.id }) := by
  cases hk : tm.kind <;> simp only [fireTimer, hk]
  split <;> rfl

/-- Firing a live timer preserves the timer-machine invariant. -/
theorem hoverInv_fireTimer (sys : HoverSys) (tm : ScheduledTimer)
    (hinv : hoverInv sys) (hmem : tm ∈ liveTimers sys) :
    hoverInv (fireTimer sys tm).1 := by
  obtain ⟨hpair, hid, hauto, hgrace⟩ := hinv
  have hmem2 : tm ∈ sys.timers ∧ tm.cancelled = false := by
    simpa [liveTimers, List.mem_filter] using hmem
  have hsub : (removeTimer sys.timers tm.id).Sublist sys.timers :=
    List.filter_sublist _
  have hsubmem : ∀ x ∈ removeTimer sys.timers tm.id, x ∈ sys.timers ∧ x.id ≠ tm.id := by
    intro x hx
    have := List.mem_filter.1 hx
    refine ⟨this.1, ?_⟩
    have h2 := this.2
    simp only [Bool.not_eq_true'] at h2
    simpa using h2
  rw [fireTimer_fst]
  cases hk : tm.kind with
  | auto =>
    refine ⟨hpair.sublist hsub, ?_, ?_, ?_⟩
    · intro x hx
      exact hid x (hsubmem x hx).1
    · intro x hx hlive hkx
      exfalso
      have h1 := hauto x (hsubmem x hx).1 hlive hkx
      have h2 := hauto tm hmem2.1 hmem2.2 hk
      rw [h2] at h1
      exact (hsubmem x hx).2 (Option.some.inj h1).symm
    · intro x hx hlive hkx
      exact hgrace x (hsubmem x hx).1 hlive hkx
  | grace =>
    refine ⟨hpair.sublist hsub, ?_, ?_, ?_⟩
    · intro x hx
      exact hid x (hsubmem x hx).1
    · intro x hx hlive hkx
      exact hauto x (hsubmem x hx).1 hlive hkx
    · intro x hx hlive hkx
      exfalso
      have h1 := hgrace x (hsubmem x hx).1 hlive hkx
      have h2 := hgrace tm hmem2.1 hmem2.2 hk
      rw [h2] at h1
      exact (hsubmem x hx).2 (Option.some.inj h1).symm

/-- `pickNext` returns an element of its argument. -/
theorem pickNext_mem : ∀ {l : List ScheduledTimer} {tm : ScheduledTimer},
    pickNext l = some tm → tm ∈ l := by
  intro l
  induction l with
  | nil => intro tm h; exact Option.noConfusion h
  | cons x rest ih =>
    intro tm h
    simp only [pickNext] at h
    cases hr : pickNext rest with
    | none =>
      rw [hr] at h
      obtain rfl := Option.some.inj h
      exact List.mem_cons_self x rest
    | some tm2 =>
      rw [hr] at h
      dsimp only at h
      split at h
      · obtain rfl := Option.some.inj h
        exact List.mem_cons_of_mem x (ih hr)
      · obtain rfl := Option.some.inj h
        exact List.mem_cons_self x rest

/-- `fireDue` preserves the timer-machine invariant. -/
theorem hoverInv_fireDue (fuel : Nat) : ∀ (sys : HoverSys) (bound : Option Nat),
    hoverInv sys → hoverInv (fireDue fuel sys bound).1 := by
  induction fuel with
  | zero => intro sys bound h; exact h
  | succ fuel ih =>
    intro sys bound h
    simp only [fireDue]
    cases hp : pickNext ((liveTimers sys).filter
        (fun tm => match bound with | none => true | some t => tm.fireAt < t)) with
    | none => exact h
    | some tm =>
      have hmem : tm ∈ liveTimers sys :=
        List.mem_of_mem_filter (pickNext_mem hp)
      exact ih (fireTimer sys tm).1 bound (hoverInv_fireTimer sys tm h hmem)

/-- Under the invariant at most one timer of each kind is live. -/
theorem hoverInv_liveCount (sys : HoverSys) (hinv : hoverInv sys) (k : TimerKind) :
    ((liveTimers sys).filter (fun tm => tm.kind == k)).length ≤ 1 := by
  obtain ⟨hpair, hid, hauto, hgrace⟩ := hinv
  cases hll : (liveTimers sys).filter (fun tm => tm.kind == k) with
  | nil => simp
  | cons x rest =>
    cases rest with
    | nil => simp
    | cons y rest2 =>
      exfalso
      have hsub : ((liveTimers sys).filter (fun tm => tm.kind == k)).Sublist
          sys.timers :=
        (List.filter_sublist _).trans (List.filter_sublist _)
      have hpl := hpair.sublist hsub
      rw [hll] at hpl
      have hxy : x.id ≠ y.id :=
        (List.pairwise_cons.1 hpl).1 y (List.mem_cons_self _ _)
      have hx : x ∈ (liveTimers sys).filter (fun tm => tm.kind == k) := by
        rw [hll]; exact List.mem_cons_self _ _
      have hy : y ∈ (liveTimers sys).filter (fun tm => tm.kind == k) := by
        rw [hll]; exact List.mem_cons_of_mem _ (List.mem_cons_self _ _)
      have hx2 : x ∈ sys.timers ∧ x.cancelled = false ∧ x.kind = k := by
        have h1 := List.mem_filter.1 hx
        have h2 := List.mem_filter.1 h1.1
        refine ⟨h2.1, by simpa [liveTimers] using h2.2, by simpa using h1.2⟩
      have hy2 : y ∈ sys.timers ∧ y.cancelled = false ∧ y.kind = k := by
        have h1 := List.mem_filter.1 hy
        have h2 := List.mem_filter.1 h1.1
        refine ⟨h2.1, by simpa [liveTimers] using h2.2, by simpa using h1.2⟩
      cases k with
      | auto =>
        have h1 := hauto x hx2.1 hx2.2.1 hx2.2.2
        have h2 := hauto y hy2.1 hy2.2.1 hy2.2.2
        rw [h1] at h2
        exact hxy (Option.some.inj h2)
      | grace =>
        have h1 := hgrace x hx2.1 hx2.2.1 hx2.2.2
        have h2 := hgrace y hy2.1 hy2.2.1 hy2.2.2
        rw [h1] at h2
        exact hxy (Option.some.inj h2)

/-- The invariant holds at content-script start. -/
theorem hoverInv_init : hoverInv initHover := by
  refine ⟨List.Pairwise.nil, ?_, ?_, ?_⟩ <;> intro tm hm <;>
    exact absurd hm (List.not_mem_nil tm)

/-- C8: in the overlay timer machine, starting the auto-dismiss timer
first cancels every live auto-dismiss or grace timer (afterwards the fresh
timer is the only live one), so under the machine's invariant — which
holds initially and is preserved by every operation (pointer-leave under
the DOM guarantee that no grace timer is pending) — at most one timer of
each kind is ever live.  With show at `t0` and no pointer entry the hide
notification fires at `t0 + 4000`; a pointer entry before that cancels
the auto-dismiss timer and a later leave makes the hide fire 300 ms after
the leave (for a leave at `t = 5000` the overlay is still unnotified at
`t = 5200` and hidden by `t = 5400`, the notification firing at `5300`);
and a re-entry within the grace period cancels the grace timer so no hide
notification ever fires. -/
theorem C8_overlay_timer_machine :
    (∀ (sys : HoverSys) (now : Nat), hoverInv sys →
      ∀ tm ∈ liveTimers (startAutoDismissTimer sys now),
        tm = ⟨sys.nextId, .auto, now + AUTO_DISMISS_DELAY, false⟩) ∧
    (∀ (sys : HoverSys) (k : TimerKind), hoverInv sys →
      ((liveTimers sys).filter (fun tm => tm.kind == k)).length ≤ 1) ∧
    hoverInv initHover ∧
    (∀ (sys : HoverSys) (now : Nat), hoverInv sys →
      hoverInv (startAutoDismissTimer sys now)) ∧
    (∀ (sys : HoverSys), hoverInv sys → hoverInv (handlePointerEnter sys)) ∧
    (∀ (sys : HoverSys) (now : Nat), hoverInv sys → sys.leaveTimer = none →
      hoverInv (handlePointerLeave sys now)) ∧
    (∀ (fuel : Nat) (sys : HoverSys) (bound : Option Nat), hoverInv sys →
      hoverInv (fireDue fuel sys bound).1) ∧
    (∀ (t0 : Nat),
      (runTrace initHover [(t0, .show)]).2 = [(t0 + 4000, false)]) ∧
    (∀ (t0 t1 t2 : Nat), t0 < t1 → t1 < t0 + 4000 → t1 < t2 →
      (runTrace initHover
        [(t0, .show), (t1, .pointerEnter), (t2, .pointerLeave)]).2 =
        [(t2 + 300, false)]) ∧
    ((runTrace initHover
        [(0, .show), (1000, .pointerEnter), (5000, .pointerLeave)]).2 =
        [(5300, false)] ∧ 5200 < 5300 ∧ 5300 ≤ 5400) ∧
    (∀ (t0 t1 t2 t3 : Nat), t0 < t1 → t1 < t0 + 4000 → t1 < t2 → t2 < t3 →
      t3 < t2 + 300 →
      (runTrace initHover [(t0, .show), (t1, .pointerEnter),
        (t2, .pointerLeave), (t3, .pointerEnter)]).2 = []) := by
  refine ⟨?_, fun sys k hinv => hoverInv_liveCount sys hinv k, hoverInv_init,
    hoverInv_start, hoverInv_enter, hoverInv_leave, hoverInv_fireDue, ?_, ?_,
    ⟨by decide, by decide, by decide⟩, ?_⟩
  · intro sys now hinv tm hm
    rw [startAutoDismissTimer_eq] at hm
    simp only [liveTimers, List.filter_append] at hm
    rcases List.mem_append.1 hm with hm | hm
    · exfalso
      have hmem := List.mem_of_mem_filter hm
      have hlive : tm.cancelled = false := by
        have := (List.mem_filter.1 hm).2
        simpa using this
      rw [cancelCloseTimer_all_cancelled sys hinv tm hmem] at hlive
      exact Bool.noConfusion hlive
    · have hmem := List.mem_of_mem_filter hm
      simpa using hmem
  · intro t0
    rfl
  · intro t0 t1 t2 h01 h1 h12
    have hnd : ¬(t0 + 4000 < t1) := by omega
    simp [runTrace, fireDue, handleHoverEvent, startAutoDismissTimer,
      cancelCloseTimer, setTimeoutSys, initHover, liveTimers, pickNext, fireTimer,
      removeTimer, AUTO_DISMISS_DELAY, LEAVE_GRACE_PERIOD, clearTimeoutSys,
      handlePointerEnter, handlePointerLeave, earlierTimer, hnd]
  · intro t0 t1 t2 t3 h01 h1 h12 h23 h3
    have hnd : ¬(t0 + 4000 < t1) := by omega
    have hnd2 : ¬(t2 + 300 < t3) := by omega
    simp [runTrace, fireDue, handleHoverEvent, startAutoDismissTimer,
      cancelCloseTimer, setTimeoutSys, initHover, liveTimers, pickNext, fireTimer,
      removeTimer, AUTO_DISMISS_DELAY, LEAVE_GRACE_PERIOD, clearTimeoutSys,
      handlePointerEnter, handlePointerLeave, earlierTimer, hnd, hnd2]

/-- C8 witness: the hover/leave/re-entry scenarios at the claim's concrete
times, and the cancel-first property at the initial state. -/
theorem C8_overlay_timer_machine_witness :
    (runTrace initHover
      [(0, .show), (1000, .pointerEnter), (5000, .pointerLeave)]).2 =
      [(5300, false)] ∧
    (runTrace initHover [(0, .show), (1000, .pointerEnter), (5000, .pointerLeave),
      (5200, .pointerEnter)]).2 = [] ∧
    (∀ tm ∈ liveTimers (startAutoDismissTimer initHover 0),
      tm = ⟨0, .auto, 4000, false⟩) :=
  ⟨C8_overlay_timer_machine.2.2.2.2.2.2.2.2.1 0 1000 5000 (by decide) (by decide)
    (by decide),
   C8_overlay_timer_machine.2.2.2.2.2.2.2.2.2.2 0 1000 5000 5200 (by decide)
    (by decide) (by decide) (by decide) (by decide),
   C8_overlay_timer_machine.1 initHover 0 C8_overlay_timer_machine.2.2.1⟩
